import Mathlib

/-!
Verification of the sgRNA sensor design catalog (`sgrna_sensor/designs.py`)
and its supporting sequence machinery.

The design catalog itself (`designs.py`) is translated directly from the
source.  The `Construct`/`Domain` data model and the naming machinery
(`make_name`, `from_name`, the grammar helper functions) live in
`sequence.py`/`components.py`, which are files of this repository that are
not available here; those definitions are modelled from the specification
(sections 3, 4.2, 4.3 and 4.5) and are calibrated against the literal
fixtures of `tests/04_test_designs.py`, which is available.
-/

namespace SgrnaSensor

/-- Modelled from the spec: error taxonomy of section 7 of the spec
(`sequence.py`/`components.py` are missing from the sources).  `valueError`
is parameter validation, `keyError`/`indexError`/`stateError` are the
structural errors of the Domain/Construct layer, `typeError` is Python's
argument-arity/type failure, and `nameError` is Python's undefined-variable
failure (reachable in `circle_bulge_combo`). -/
inductive Err where
  | valueError (msg : String)
  | keyError (msg : String)
  | indexError (msg : String)
  | stateError (msg : String)
  | typeError (msg : String)
  | nameError (msg : String)
deriving DecidableEq, Repr

/-- Equality of fallible results is decidable, so that concrete catalog
evaluations can be checked by `decide`. -/
instance exceptDecEq {ε α : Type} [DecidableEq ε] [DecidableEq α] :
    DecidableEq (Except ε α) := fun x y =>
  match x, y with
  | .ok a, .ok b =>
    if h : a = b then .isTrue (by rw [h]) else .isFalse (by simp [h])
  | .error e, .error f =>
    if h : e = f then .isTrue (by rw [h]) else .isFalse (by simp [h])
  | .ok _, .error _ => .isFalse (by simp)
  | .error _, .ok _ => .isFalse (by simp)

/-- Modelled from the spec: an attachment position argument is either a
non-negative offset into the named domain or the `'...'` sentinel
(section 4.2, design note in section 9). -/
inductive Pos where
  | idx (n : Nat)
  | dots
deriving DecidableEq, Repr

/-- Modelled from the spec: `Domain` of `sequence.py` (section 3): a named
run of sequence characters plus structural/style metadata. -/
structure Domain where
  name : String
  seq : List Char
  expectedFold : String := ""
  style : String := ""
  mutableF : Bool := false
  attachmentSites : String := ""
deriving DecidableEq, Repr

/-- Modelled from the spec: one recorded `attach` operation (section 4.2):
the insert's domains are spliced between the cut points
`(domA, posA)` and `(domB, posB)` when the construct is rendered. -/
structure Attachment where
  domA : String
  posA : Pos
  domB : String
  posB : Pos
  insert : List Domain
deriving DecidableEq, Repr

/-- Modelled from the spec: `Construct` of `sequence.py` (section 3): an
ordered collection of domains plus the attachments spliced into them. -/
structure Construct where
  name : String
  domains : List Domain
  attachments : List Attachment
deriving DecidableEq, Repr

/-- Resolve a 5'-side cut position: a numeric offset stands, `'...'` means
the start of the domain (discard everything of it before the insert). -/
def resolveA : Pos → Nat → Nat
  | .idx n, _ => n
  | .dots, _ => 0

/-- Resolve a 3'-side cut position: a numeric offset stands, `'...'` means
the end of the domain (discard everything of it after the insert). -/
def resolveB : Pos → Nat → Nat
  | .idx n, _ => n
  | .dots, len => len

/-- Rendered sequence of an attachment's insert: concatenation of its
domains' sequences. -/
def insSeq (ds : List Domain) : List Char :=
  (ds.map (fun d => d.seq)).flatten

/-- Modelled from the spec: rendering walk (section 4.2 / 5.2 rendering).
The optional state records that we are between the two cut points of an
attachment and must skip host material until the named 3'-side domain. -/
def renderGo : List Domain → List Attachment → Option (String × Pos) → List Char
  | [], _, _ => []
  | d :: rest, atts, some sp =>
    if d.name = sp.1 then
      (d.seq.drop (resolveB sp.2 d.seq.length)) ++ renderGo rest atts none
    else
      renderGo rest atts (some sp)
  | d :: rest, atts, none =>
    match atts.find? (fun a => a.domA == d.name) with
    | some a =>
      (d.seq.take (resolveA a.posA d.seq.length)) ++ insSeq a.insert ++
      (if a.domB = d.name then
        (d.seq.drop (resolveB a.posB d.seq.length)) ++ renderGo rest atts none
      else
        renderGo rest atts (some (a.domB, a.posB)))
    | none => d.seq ++ renderGo rest atts none

/-- Rendered sequence of a construct (the derived `seq` attribute). -/
def Construct.seq (c : Construct) : List Char :=
  renderGo c.domains c.attachments none

/-- Rendered sequence as a string. -/
def Construct.seqStr (c : Construct) : String :=
  String.mk c.seq

/-- Modelled from the spec: Construct equality compares rendered `seq`
content only; name and metadata are excluded (section 3, "Equality"). -/
def Construct.eqC (a b : Construct) : Bool :=
  a.seq == b.seq

/-- Modelled from the spec: a Construct also compares equal to a raw
sequence string by its rendered content (section 3, "Equality"). -/
def Construct.eqStr (a : Construct) (s : String) : Bool :=
  a.seq == s.toList

/-- First domain with the given name, searching the construct's own domains
and then the domains of its attachments' inserts. -/
def Construct.findDomain (c : Construct) (n : String) : Option Domain :=
  match c.domains.find? (fun d => d.name == n) with
  | some d => some d
  | none =>
    (c.attachments.map (fun a => a.insert.find? (fun d => d.name == n))).reduceOption.head?

/-- Whether a top-level (host) domain with the given name exists. -/
def Construct.hasDomain (c : Construct) (n : String) : Bool :=
  c.domains.any (fun d => d.name == n)

/-- Length of the named domain (Python `len(construct[name])`). -/
def Construct.domainLen (c : Construct) (n : String) : Except Err Nat :=
  match c.findDomain n with
  | some d => .ok d.seq.length
  | none => .error (.keyError n)

/-- Does a position fit inside a domain of the given length? -/
def Pos.okFor (p : Pos) (len : Nat) : Bool :=
  match p with
  | .idx k => k ≤ len
  | .dots => true

/-- Modelled from the spec: `Construct.attach` (section 4.2).  Validates
that both named domains exist and that numeric offsets do not exceed their
current lengths, refuses a domain-name collision between the insert and the
host, and records the attachment for rendering. -/
def Construct.attach (c : Construct) (ins : Construct) (da : String) (pa : Pos)
    (db : String) (pb : Pos) : Except Err Construct :=
  match c.domains.find? (fun d => d.name == da), c.domains.find? (fun d => d.name == db) with
  | some dA, some dB =>
    if pa.okFor dA.seq.length && pb.okFor dB.seq.length then
      if ins.domains.any (fun d => c.hasDomain d.name) then
        .error (.valueError "attach: domain name collision")
      else
        .ok { c with attachments := c.attachments ++ [⟨da, pa, db, pb, ins.domains⟩] }
    else .error (.valueError "attach: position out of range")
  | _, _ => .error (.valueError "attach: no such domain")

/-- Update the first domain with the given name, searching host domains
first; the update itself may fail (e.g. mutating an immutable domain). -/
def updD1 (n : String) (f : Domain → Except Err Domain) :
    List Domain → Except Err (Option (List Domain))
  | [] => .ok none
  | d :: ds =>
    if d.name == n then do
      let d' ← f d
      return some (d' :: ds)
    else do
      match ← updD1 n f ds with
      | some ds' => return some (d :: ds')
      | none => return none

/-- Update the first matching domain inside a list of attachments. -/
def updAtts (n : String) (f : Domain → Except Err Domain) :
    List Attachment → Except Err (Option (List Attachment))
  | [] => .ok none
  | a :: as_ => do
    match ← updD1 n f a.insert with
    | some ins' => return some ({ a with insert := ins' } :: as_)
    | none =>
      match ← updAtts n f as_ with
      | some as' => return some (a :: as')
      | none => return none

/-- Modelled from the spec: in-place mutation of a named domain, reaching
into attachment inserts as well (e.g. `sgrna['on'].prepend('UC')`). -/
def Construct.updateDomain (c : Construct) (n : String)
    (f : Domain → Except Err Domain) : Except Err Construct := do
  match ← updD1 n f c.domains with
  | some ds => return { c with domains := ds }
  | none =>
    match ← updAtts n f c.attachments with
    | some as_ => return { c with attachments := as_ }
    | none => .error (.keyError n)

/-- Modelled from the spec: `Domain.mutate` (section 4.1): fails with a
state error on an immutable domain and an index error out of range. -/
def Domain.mutate (d : Domain) (i : Nat) (c : Char) : Except Err Domain :=
  if !d.mutableF then .error (.stateError ("domain is not mutable: " ++ d.name))
  else if i < d.seq.length then .ok { d with seq := d.seq.set i c }
  else .error (.indexError ("position out of range: " ++ d.name))

/-- Modelled from the spec: `Domain.replace` (section 4.1): splices a new
sequence into `[start, end)` and drops `expected_fold`. -/
def Domain.replaceSub (d : Domain) (a b : Nat) (xs : List Char) : Domain :=
  { d with seq := d.seq.take a ++ xs ++ d.seq.drop b, expectedFold := "" }

/-- Modelled from the spec: `Domain.prepend` (section 4.1). -/
def Domain.prependD (d : Domain) (xs : List Char) : Domain :=
  { d with seq := xs ++ d.seq, expectedFold := "" }

/-- Modelled from the spec: `Domain.append` (section 4.1). -/
def Domain.appendD (d : Domain) (xs : List Char) : Domain :=
  { d with seq := d.seq ++ xs, expectedFold := "" }

/-- Python slice `s[a:b]` with non-negative bounds (clips at the ends). -/
def pySlice (s : List Char) (a b : Nat) : List Char :=
  (s.take b).drop a

/-! ### Decimal rendering and parsing of numeric arguments -/

/-- The character for a single decimal digit value. -/
def digitChar (n : Nat) : Char :=
  Char.ofNat (48 + n)

/-- Fuel-driven decimal rendering loop (most significant digit first). -/
def natToCharsAux : Nat → Nat → List Char
  | 0, _ => []
  | fuel + 1, n =>
    if n < 10 then [digitChar n]
    else natToCharsAux fuel (n / 10) ++ [digitChar (n % 10)]

/-- Decimal rendering of a natural number. -/
def natToChars (n : Nat) : List Char :=
  natToCharsAux (n + 1) n

/-- Value of a decimal digit character, if it is one. -/
def charDigit? (c : Char) : Option Nat :=
  if '0' ≤ c ∧ c ≤ '9' then some (c.toNat - 48) else none

/-- Accumulating decimal parse; fails on any non-digit character. -/
def parseNatAux : List Char → Nat → Option Nat
  | [], acc => some acc
  | c :: cs, acc =>
    match charDigit? c with
    | some d => parseNatAux cs (10 * acc + d)
    | none => none

/-- Parse a non-empty all-digit character list as a natural number. -/
def parseNatChars (cs : List Char) : Option Nat :=
  match cs with
  | [] => none
  | _ => parseNatAux cs 0

/-- Modelled from the spec: a coerced name-grammar argument (section 4.5
step 3): tokens become ints when they are all digits, otherwise strings;
`noneA` stands for Python's `None` default. -/
inductive Arg where
  | i (n : Int)
  | s (v : String)
  | noneA
deriving DecidableEq, Repr

/-- Rendering of one argument inside a canonical name (Python `str`). -/
def renderArg : Arg → List Char
  | .i n => if n < 0 then '-' :: natToChars (-n).toNat else natToChars n.toNat
  | .s v => v.data
  | .noneA => "None".data

/-- Rendering of one argument as a string. -/
def argToStr (a : Arg) : String :=
  String.mk (renderArg a)

/-! ### Canonical names (`make_name`) -/

/-- Modelled from the spec: the per-design parameter schema consulted when
rendering names (sections 4.3 and 9): for each abbreviation, the declared
defaults of the leading parameters that can appear in a name (`none` means
the parameter is required and is never trimmed). -/
def schemaDefaults : String → List (Option Arg)
  | "us" => [none, some (.i 0), some (.i 0), some (.i 1)]
  | "ls" => [none, some (.i 0), some (.i 0)]
  | "nx" => [some (.i 0)]
  | "nxx" => [none, none, some (.i 0), some (.i 1)]
  | "fh" => [none, none]
  | "hp" => [none]
  | "id" => [none, none]
  | "sb" => [none, some (.s "")]
  | "sl" => [some (.s "")]
  | "slx" => [some (.s "")]
  | "sh" => [none, some (.s "")]
  | "cb" => [some (.s "")]
  | "cl" => [some (.s "")]
  | "ch" => [none, some (.s "")]
  | "hu" => [none]
  | "hx" => [none]
  | "hh" => [none]
  | _ => []

/-- Pad (or cut) a default list to the length of the argument list; extra
positions have no default and are never trimmed. -/
def padDefaults (ds : List (Option Arg)) (n : Nat) : List (Option Arg) :=
  ds.take n ++ List.replicate (n - ds.length) none

/-- Omit trailing default-valued arguments from the right (section 4.3). -/
def trimArgs (args : List Arg) (ds : List (Option Arg)) : List Arg :=
  (((args.zip (padDefaults ds args.length)).reverse.dropWhile
      (fun p => decide (p.2 = some p.1))).reverse).map (fun p => p.1)

/-- Comma-join of rendered arguments. -/
def commaJoin : List (List Char) → List Char
  | [] => []
  | [r] => r
  | r :: rs => r ++ ',' :: commaJoin rs

/-- Modelled from the spec: `make_name` (section 4.3): joins the strategy
abbreviation and the supplied arguments, omitting trailing default-valued
arguments from the right. -/
def make_name (abbr : String) (args : List Arg) : String :=
  if (trimArgs args (schemaDefaults abbr)).isEmpty then abbr
  else String.mk (abbr.data ++
    ('(' :: (commaJoin ((trimArgs args (schemaDefaults abbr)).map renderArg) ++ [')'])))

/-! ### Sequence components (`components.py`, modelled from the spec) -/

/-- The fixed wildtype domain sequences of `wt_sgrna` (from `designs.py`). -/
def stemSeq : List Char := "GUUUUAGAGCUAGAAAUAGCAAGUUAAAAU".toList

/-- Wildtype nexus domain sequence (from `designs.py`). -/
def nexusSeq : List Char := "AAGGCUAGUCCGU".toList

/-- Wildtype hairpins domain sequence (from `designs.py`). -/
def hairpinsSeq : List Char := "UAUCAACUUGAAAAAGUGGCACCGAGUCGGUGC".toList

/-- Wildtype tail domain sequence (from `designs.py`). -/
def tailSeq : List Char := "UUUUUU".toList

/-- Modelled from the spec: the target/spacer registry (section 6).  Only
the default target `aavs` is exercised by the catalog and its tests; its
spacer sequence is fixed by every literal fixture of
`tests/04_test_designs.py`. -/
def spacer (target : String) : Except Err Domain :=
  if target = "aavs" then
    .ok { name := "spacer", seq := "GGGGCCACTAGGGACAGGAT".toList, style := "white" }
  else .error (.valueError ("spacer: unknown target: " ++ target))

/-- Theophylline aptamer 5' piece (fixed by the test fixtures). -/
def theo5 : List Char := "AUACCAGCC".toList

/-- Theophylline aptamer natural splitter piece (fixed by the fixtures and
by the `nxx` splitter-length validation boundary). -/
def theoLink : List Char := "GAAA".toList

/-- Theophylline aptamer 3' piece (fixed by the test fixtures). -/
def theo3 : List Char := "GGCCCUUGGCAG".toList

/-- Modelled from the spec: the aptamer registry `aptamer(ligand, end)`
(section 6).  Only the theophylline aptamer is modelled; its pieces are
fixed by the test fixtures.  Unknown ligands fail with a value error that
propagates unchanged. -/
def aptamer (ligand piece : String) : Except Err Construct :=
  if ligand = "theo" ∨ ligand = "th" then
    match piece with
    | "whole" => .ok ⟨"aptamer", [{ name := "aptamer", seq := theo5 ++ theoLink ++ theo3, style := "yellow" }], []⟩
    | "5" => .ok ⟨"aptamer", [{ name := "aptamer/5", seq := theo5, style := "yellow" }], []⟩
    | "3" => .ok ⟨"aptamer", [{ name := "aptamer/3", seq := theo3, style := "yellow" }], []⟩
    | "splitter" => .ok ⟨"aptamer", [{ name := "aptamer/splitter", seq := theoLink, style := "yellow" }], []⟩
    | _ => .error (.valueError ("aptamer: unknown piece: " ++ piece))
  else .error (.valueError ("aptamer: unknown ligand: " ++ ligand))

/-- The default filler pattern for linkers and splitters (section 4.3 and
the `us`/`ls` docstrings: a `UUUCCC...` pattern truncated to length). -/
def fillerPat : List Char := "UUUCCC".toList

/-- Modelled from the spec: `repeat(name, length, pattern)` — deterministic
filler: the pattern cycled and truncated to the requested length. -/
def repeatSeq (len : Nat) (pat : List Char) : List Char :=
  ((List.replicate len pat).flatten).take len

/-- Nested aptamer block: with `k` aptamers the block is the 5' piece and
3' piece wrapped `k` times around the middle sequence (each additional
aptamer inserted at the canonical split position inside the previous one,
section 4.3). -/
def nestedApt : Nat → List Char → List Domain
  | 0, mid => [{ name := "splitter", seq := mid, style := "yellow" }]
  | k + 1, mid =>
    { name := "aptamer/5", seq := theo5, style := "yellow" } ::
      (nestedApt k mid ++ [{ name := "aptamer/3", seq := theo3, style := "yellow" }])

/-- Modelled from the spec: `aptamer_insert` (section 4.3): the aptamer
block (nested `numAptamers` times, with the natural splitter replaced by a
deterministic filler when `splitterLen` is nonzero) framed by optional
linkers of the given lengths.  Calibrated against the `us`/`ls`/`nx`/`nxx`
fixtures. -/
def aptamer_insert (ligand : String) (linker5 linker3 : Nat) (splitterLen : Nat)
    (pat : List Char) (numAptamers : Nat) : Except Err Construct :=
  if ligand = "theo" ∨ ligand = "th" then
    if numAptamers = 0 then .error (.valueError "aptamer_insert: need at least one aptamer")
    else
      let mid := if splitterLen = 0 then theoLink else repeatSeq splitterLen pat
      .ok ⟨"insert",
        (if linker5 = 0 then [] else [{ name := "linker/5", seq := repeatSeq linker5 pat }]) ++
        nestedApt numAptamers mid ++
        (if linker3 = 0 then [] else [{ name := "linker/3", seq := repeatSeq linker3 pat }]),
        []⟩
  else .error (.valueError ("aptamer_insert: unknown ligand: " ++ ligand))

/-- Watson-Crick complement of an RNA base (placeholders map to
themselves). -/
def compBase : Char → Char
  | 'A' => 'U'
  | 'U' => 'A'
  | 'G' => 'C'
  | 'C' => 'G'
  | c => c

/-- Reverse complement of an RNA sequence. -/
def revcomp (s : List Char) : List Char :=
  (s.map compBase).reverse

/-- Modelled from the spec: the enumerated set of tuning-strategy codes
(section 4.3: "values include the empty string ... and specific codes like
`wo`").  The `wo` code weakens the on domain by mutating the base three
positions from its 3' end to `G`; this is calibrated against the
`cbc/wo/slx/wo` fixture of the tests. -/
def applyTuning (sq : List Char) (tuning : String) : Except Err (List Char) :=
  match tuning with
  | "" => .ok sq
  | "wo" => .ok (sq.set (sq.length - 3) 'G')
  | _ => .error (.valueError ("unrecognized tuning strategy: " ++ tuning))

/-- Modelled from the spec: `tunable_switch` — builds the switch domain
(reverse complement of the given sequence), the on domain (the sequence
with the tuning strategy's point mutation applied) and an off domain. -/
def tunable_switch (sq : List Char) (tuning : String) :
    Except Err (Domain × Domain × Domain) := do
  let on_ ← applyTuning sq tuning
  return ({ name := "switch", seq := revcomp sq },
          { name := "on", seq := on_ },
          { name := "off", seq := [] })

/-- Modelled from the spec: `serpentine_insert` (section 4.3 and the
`sb`/`sl`/`slx`/`sh` fixtures).  For a 3'-side target the block reads
on – aptamer – switch – turn; for a 5'-side target it reads
turn – switch – aptamer – on. -/
def serpentine_insert (ligand : String) (sq : List Char) (side : String)
    (tuning : String) (turnSeq : List Char) (numAptamers : Nat) :
    Except Err Construct := do
  let (sw, on_, _) ← tunable_switch sq tuning
  let apt ← aptamer_insert ligand 0 0 0 fillerPat numAptamers
  let turn : Domain := { name := "turn", seq := turnSeq }
  match side with
  | "3" => return ⟨"serpentine", on_ :: (apt.domains ++ [sw, turn]), []⟩
  | "5" => return ⟨"serpentine", turn :: sw :: (apt.domains ++ [on_]), []⟩
  | _ => .error (.valueError ("serpentine_insert: bad target side: " ++ side))

/-- Modelled from the spec: `circle_insert` (section 4.3 and the
`cb`/`cl`/`ch` fixtures).  For a 3'-side target the block reads
switch – aptamer – on; for a 5'-side target it reads on – aptamer –
switch. -/
def circle_insert (ligand : String) (sq : List Char) (side : String)
    (tuning : String) (numAptamers : Nat) : Except Err Construct := do
  let (sw, on_, _) ← tunable_switch sq tuning
  let apt ← aptamer_insert ligand 0 0 0 fillerPat numAptamers
  match side with
  | "3" => return ⟨"circle", sw :: (apt.domains ++ [on_]), []⟩
  | "5" => return ⟨"circle", on_ :: (apt.domains ++ [sw]), []⟩
  | _ => .error (.valueError ("circle_insert: bad target side: " ++ side))

/-- Modelled from the spec: `hammerhead_insert` is named by section 4.3 but
neither the sources under src/ nor the spec give its sequence content or
its mode set; it is modelled as a deterministic fragment wrapping the
aptamer block, with a small enumerated mode set, which suffices for the
naming/round-trip properties. -/
def hammerhead_insert (ligand : String) (mode : String) (numAptamers : Nat) :
    Except Err Construct := do
  let apt ← aptamer_insert ligand 0 0 0 fillerPat numAptamers
  if mode = "on" ∨ mode = "off" then
    return ⟨"hammerhead",
      { name := "hammerhead/5", seq := "CUGAUGA".toList } ::
        (apt.domains ++ [{ name := "hammerhead/3", seq := "UCGAAAC".toList }]),
      []⟩
  else .error (.valueError ("hammerhead_insert: unknown mode: " ++ mode))

/-! ### The design catalog (`designs.py`, translated from the source) -/

/-- Length of a construct (Python `len`): length of its rendered
sequence. -/
def Construct.lengthC (c : Construct) : Nat :=
  c.seq.length

/-- Wildtype sgRNA: four fixed domains, optionally prefixed with a spacer
looked up from the target registry (`designs.py`, `wt_sgrna`). -/
def wt_sgrna (target : Option String) : Except Err Construct := do
  let pre ← match target with
    | none => pure ([] : List Domain)
    | some t => do
      let sp ← spacer t
      pure [sp]
  return {
    name := "wt",
    domains := pre ++ [
      { name := "stem", seq := stemSeq,
        expectedFold := "((((((..((((....))))....))))))",
        style := "green", attachmentSites := "anywhere" },
      { name := "nexus", seq := nexusSeq, style := "red",
        attachmentSites := "anywhere" },
      { name := "hairpins", seq := hairpinsSeq,
        expectedFold := ".....((((....)))).((((((...))))))",
        style := "blue", attachmentSites := "anywhere" },
      { name := "tail", seq := tailSeq } ],
    attachments := [] }

/-- The rendered wildtype sequence without a spacer (used by several
strategies that slice `wt_sgrna().seq`). -/
def wtSeqNoSpacer : List Char :=
  stemSeq ++ nexusSeq ++ hairpinsSeq ++ tailSeq

/-- Negative-control sgRNA: wildtype with nexus positions 2 and 3 mutated
to C (`designs.py`, `dead_sgrna`). -/
def dead_sgrna (target : Option String) : Except Err Construct := do
  let sg ← wt_sgrna target
  let sg := { sg with name := "dead" }
  let sg ← sg.updateDomain "nexus" (fun d => .ok { d with mutableF := true })
  let sg ← sg.updateDomain "nexus" (fun d => d.mutate 2 'C')
  let sg ← sg.updateDomain "nexus" (fun d => d.mutate 3 'C')
  let sg ← sg.updateDomain "nexus" (fun d => .ok { d with mutableF := false })
  return sg

/-- Insert the aptamer into the upper stem (`designs.py`,
`fold_upper_stem`). -/
def fold_upper_stem (N linkerLen splitterLen numAptamers : Int)
    (ligand : String) (target : Option String) : Except Err Construct := do
  if ¬ (0 ≤ N ∧ N ≤ 4) then
    .error (.valueError ("Location for upper stem insertion must be between 0 and 4, not "
      ++ argToStr (.i N) ++ "."))
  else
    let args : List Arg :=
      if numAptamers ≠ 1 then [.i N, .i linkerLen, .i splitterLen, .i numAptamers]
      else if splitterLen ≠ 0 then [.i N, .i linkerLen, .i splitterLen]
      else [.i N, .i linkerLen]
    let sg ← wt_sgrna target
    let sg := { sg with name := make_name "us" args }
    let ins ← aptamer_insert ligand linkerLen.toNat linkerLen.toNat
      splitterLen.toNat fillerPat numAptamers.toNat
    sg.attach ins "stem" (.idx (8 + N).toNat) "stem" (.idx (20 - N).toNat)

/-- Insert the aptamer into the lower stem (`designs.py`,
`fold_lower_stem`). -/
def fold_lower_stem (N linkerLen splitterLen : Int)
    (ligand : String) (target : Option String) : Except Err Construct := do
  if ¬ (0 ≤ N ∧ N ≤ 6) then
    .error (.valueError ("Location for lower stem insertion must be between 0 and 6, not "
      ++ argToStr (.i N) ++ "."))
  else
    let args : List Arg :=
      if splitterLen ≠ 0 then [.i N, .i linkerLen, .i splitterLen]
      else [.i N, .i linkerLen]
    let sg ← wt_sgrna target
    let sg := { sg with name := make_name "ls" args }
    let ins ← aptamer_insert ligand linkerLen.toNat linkerLen.toNat
      splitterLen.toNat fillerPat 1
    sg.attach ins "stem" (.idx (0 + N).toNat) "stem" (.idx (30 - N).toNat)

/-- Insert the aptamer into the nexus with an all-U linker (`designs.py`,
`fold_nexus`). -/
def fold_nexus (linkerLen : Int) (ligand : String) (target : Option String) :
    Except Err Construct := do
  let sg ← wt_sgrna target
  let sg := { sg with name := make_name "nx" [.i linkerLen] }
  let ins ← aptamer_insert ligand linkerLen.toNat linkerLen.toNat 0 "U".toList 1
  sg.attach ins "nexus" (.idx 4) "nexus" (.idx 9)

/-- Insert the aptamer into the nexus with explicit flanks (`designs.py`,
`fold_nexus_2`).  The out-of-range message for `M` formats `N`'s value, as
the source does. -/
def fold_nexus_2 (N M splitterLen numAptamers : Int)
    (ligand : String) (target : Option String) : Except Err Construct := do
  let minSplitC ← aptamer "theo" "splitter"
  let minSplitterLen : Int := Int.ofNat minSplitC.lengthC
  if ¬ (0 ≤ N ∧ N ≤ 4) then
    .error (.valueError ("nxx: N must be between 0 and 4, not " ++ argToStr (.i N)))
  else if ¬ (0 ≤ M ∧ M ≤ 5) then
    .error (.valueError ("nxx: M must be between 0 and 5, not " ++ argToStr (.i N)))
  else if 0 < splitterLen ∧ splitterLen ≤ minSplitterLen then
    .error (.valueError ("nxx: splitter_len must be longer than "
      ++ argToStr (.i minSplitterLen) ++ " (the natural linker length)."))
  else if numAptamers < 1 then
    .error (.valueError "nxx: Must have at least 1 aptamer")
  else
    let args : List Arg :=
      if numAptamers ≠ 1 then [.i N, .i M, .i splitterLen, .i numAptamers]
      else if splitterLen ≠ 0 then [.i N, .i M, .i splitterLen]
      else [.i N, .i M]
    let sg ← wt_sgrna target
    let sg := { sg with name := make_name "nxx" args }
    let ins ← aptamer_insert ligand 0 0 splitterLen.toNat fillerPat numAptamers.toNat
    sg.attach ins "nexus" (.idx (2 + N).toNat) "nexus" (.idx (11 - M).toNat)

/-- Replace one of the hairpins with the aptamer (`designs.py`,
`fold_hairpin`). -/
def fold_hairpin (H N A : Int) (ligand : String) (target : Option String) :
    Except Err Construct := do
  if ¬ (H = 1 ∨ H = 2) then
    .error (.valueError "fh(H,N): H must be either 1 or 2")
  else
    let maxN : Int := if H = 1 then 4 else 6
    if ¬ (0 ≤ N ∧ N ≤ maxN) then
      .error (.valueError ("fh(H,N): N must be between 0 and " ++ argToStr (.i maxN)))
    else
      let sg ← wt_sgrna target
      let sg := { sg with name := make_name "fh" [.i H, .i N] }
      let ins ← aptamer_insert ligand 0 0 0 fillerPat A.toNat
      sg.attach ins
        "hairpins" (.idx (if H = 1 then (5 + N).toNat else (18 + N).toNat))
        "hairpins" (.idx (if H = 1 then (17 - N).toNat else (33 - N).toNat))

/-- Truncate the 3' hairpins and append the aptamer (`designs.py`,
`replace_hairpins`). -/
def replace_hairpins (N : Int) (ligand : String) (target : Option String) :
    Except Err Construct := do
  let sg ← wt_sgrna target
  let sg := { sg with name := make_name "hp" [.i N] }
  let domainLen ← sg.domainLen "hairpins"
  let insertionSite : Nat := (min N (Int.ofNat domainLen)).toNat
  let linker5 : Nat := (max 0 (N - Int.ofNat domainLen)).toNat
  let ins ← aptamer_insert ligand linker5 0 0 fillerPat 1
  sg.attach ins "hairpins" (.idx insertionSite) "hairpins" .dots

/-- Split the sgRNA and let the aptamer bring the halves together
(`designs.py`, `induce_dimerization`). -/
def induce_dimerization (half : String) (N : Int)
    (target : Option String) (ligand : String) : Except Err Construct := do
  if ¬ (0 ≤ N ∧ N ≤ 4) then
    .error (.valueError ("Location for upper stem insertion must be between 0 and 4, not "
      ++ argToStr (.i N) ++ "."))
  else
    let nm := make_name "id" [.s half, .i N]
    let wt ← wt_sgrna target
    if half = "5" then
      let pre : List Domain := match wt.findDomain "spacer" with
        | some sp => [sp]
        | none => []
      let stem : List Domain := match wt.findDomain "stem" with
        | some st => [st]
        | none => []
      let design : Construct := ⟨nm, pre ++ stem, []⟩
      let apt ← aptamer ligand "5"
      design.attach apt "stem" (.idx (8 + N).toNat) "stem" .dots
    else if half = "3" then
      let design : Construct := { wt with name := nm }
      let apt ← aptamer ligand "3"
      design.attach apt "stem" .dots "stem" (.idx (20 - N).toNat)
    else
      .error (.valueError ("Half for induced dimerization must be either 5 (for the 5' half) or 3 (for the 3' half), not '"
        ++ half ++ "'."))

/-- Sequester the bulge in a non-productive hairpin (`designs.py`,
`serpentine_bulge`). -/
def serpentine_bulge (N : Int) (tuning : String) (A : Int)
    (ligand : String) (target : Option String) : Except Err Construct := do
  if N < 2 then
    .error (.valueError "sb(N): N must be 2 or greater")
  else
    let sg ← wt_sgrna target
    let sg := { sg with name := make_name "sb" [.i N, .s tuning] }
    let ins ← serpentine_insert ligand (pySlice stemSeq 22 (22 + N).toNat) "3"
      tuning theoLink A.toNat
    let sg ← sg.attach ins "stem" (.idx 8) "stem" (.idx 22)
    sg.updateDomain "on" (fun d => .ok (d.prependD "UC".toList))

/-- Sequester the nexus in base pairs with the lower stem (`designs.py`,
`serpentine_lower_stem`). -/
def serpentine_lower_stem (tuning : String) (A : Int)
    (ligand : String) (target : Option String) : Except Err Construct := do
  let sg ← wt_sgrna target
  let sg := { sg with name := make_name "sl" [.s tuning] }
  let ins ← serpentine_insert ligand "GGCU".toList "3" tuning theoLink A.toNat
  let sg ← sg.attach ins "stem" (.idx 0) "nexus" (.idx 2)
  let sg ← sg.updateDomain "on" (fun d => .ok (d.prependD "UC".toList))
  let sg ← sg.updateDomain "on" (fun d => .ok (d.appendD "GA".toList))
  sg.updateDomain "switch" (fun d => .ok (d.prependD "AAGU".toList))

/-- Use the lower stem to extend the nexus stem (`designs.py`,
`serpentine_lower_stem_around_nexus`). -/
def serpentine_lower_stem_around_nexus (tuning : String) (A : Int)
    (ligand : String) (target : Option String) : Except Err Construct := do
  let sg ← wt_sgrna target
  let sg := { sg with name := make_name "slx" [.s tuning] }
  let ins ← serpentine_insert ligand "GUUAUC".toList "3" tuning [] A.toNat
  let sg ← sg.attach ins "stem" .dots "stem" .dots
  let sg ← sg.updateDomain "on" (fun d => .ok (d.appendD "GA".toList))
  sg.updateDomain "switch" (fun d => .ok (d.prependD "AAGU".toList))

/-- Sequester the 3' end of the nexus against the first hairpin
(`designs.py`, `serpentine_hairpin`). -/
def serpentine_hairpin (N : Int) (tuning : String) (A : Int)
    (ligand : String) (target : Option String) : Except Err Construct := do
  if ¬ (4 ≤ N ∧ N ≤ 14) then
    .error (.valueError "sh(N): N must be between 4 and 14")
  else
    let sg ← wt_sgrna target
    let sg := { sg with name := make_name "sh" [.i N, .s tuning] }
    let ins ← serpentine_insert ligand (pySlice wtSeqNoSpacer (44 - N).toNat 44) "5"
      tuning "AUCA".toList A.toNat
    sg.attach ins "hairpins" (.idx 1) "hairpins" (.idx 17)

/-- Extend the lower stem hairpin through the bulge (`designs.py`,
`circle_bulge`). -/
def circle_bulge (tuning : String) (A : Int)
    (ligand : String) (target : Option String) : Except Err Construct := do
  let sg ← wt_sgrna target
  let sg := { sg with name := make_name "cb" [.s tuning] }
  let ins ← circle_insert ligand "AAGU".toList "3" tuning A.toNat
  sg.attach ins "stem" (.idx 6) "stem" (.idx 20)

/-- Combine `circle_bulge` with an orthogonal design (`designs.py`,
`circle_bulge_combo`).  As in the source, the name is built from the
abbreviation `cb`, the `slx` branch mutates the stem domain directly, and
the final else branch formats the undefined variable `strategy`, which in
Python raises `NameError` instead of the intended `ValueError`. -/
def circle_bulge_combo (tuning comboStrategy : String) (comboArg : Option Arg)
    (A : Int) (ligand : String) (target : Option String) : Except Err Construct := do
  let sg ← circle_bulge tuning 1 "theo" target
  let sg := { sg with
    name := make_name "cb" [.s tuning, .s comboStrategy,
      match comboArg with
      | some a => a
      | none => .noneA] }
  if comboStrategy = "slx" then
    let L ← sg.domainLen "stem"
    let fallback : String := match comboArg with
      | none => "wo"
      | some (.s "") => "wo"
      | some (.i 0) => "wo"
      | some .noneA => "wo"
      | some a => argToStr a
    let (sw, on_, _) ← tunable_switch "GUUAUC".toList fallback
    let sg ← sg.updateDomain "stem" (fun d => .ok (d.replaceSub 0 6 on_.seq))
    sg.updateDomain "stem" (fun d => .ok (d.replaceSub (L - 6) L sw.seq))
  else if comboStrategy = "sh" then
    match comboArg with
    | none => .error (.valueError "The 'sh' combo strategy requires an argument.")
    | some .noneA => .error (.valueError "The 'sh' combo strategy requires an argument.")
    | some (.s v) => .error (.typeError ("unsupported operand type for slicing: " ++ v))
    | some (.i n) =>
      let ins ← serpentine_insert ligand (pySlice wtSeqNoSpacer (44 - n).toNat 44) "5"
        "" "AUCA".toList A.toNat
      sg.attach ins "hairpins" (.idx 1) "hairpins" (.idx 17)
  else
    .error (.nameError "name 'strategy' is not defined")

/-- Sequester the 5' half of the nexus against the lower stem
(`designs.py`, `circle_lower_stem`). -/
def circle_lower_stem (tuning : String) (A : Int)
    (ligand : String) (target : Option String) : Except Err Construct := do
  let sg ← wt_sgrna target
  let sg := { sg with name := make_name "cl" [.s tuning] }
  let ins ← circle_insert ligand "AAGGCU".toList "3" tuning A.toNat
  let sg ← sg.attach ins "stem" (.idx 0) "stem" .dots
  let sg ← sg.updateDomain "switch" (fun d => .ok (d.appendD "GA".toList))
  sg.updateDomain "on" (fun d => .ok (d.prependD "AAGU".toList))

/-- Move the nexus closer to the hairpins (`designs.py`,
`circle_hairpin`). -/
def circle_hairpin (N : Int) (tuning : String) (A : Int)
    (ligand : String) (target : Option String) : Except Err Construct := do
  let sg ← wt_sgrna target
  let sg := { sg with name := make_name "ch" [.i N, .s tuning] }
  let ins ← circle_insert ligand (pySlice wtSeqNoSpacer (48 - N).toNat 48) "5"
    tuning A.toNat
  sg.attach ins "hairpins" (.idx 5) "hairpins" (.idx 17)

/-- Hammerhead ribozyme in the upper stem (`designs.py`,
`hammerhead_upper_stem`). -/
def hammerhead_upper_stem (mode : String) (A : Int)
    (ligand : String) (target : Option String) : Except Err Construct := do
  let sg ← wt_sgrna target
  let sg := { sg with name := make_name "hu" [.s mode] }
  let ins ← hammerhead_insert ligand mode A.toNat
  sg.attach ins "stem" (.idx 8) "stem" (.idx 20)

/-- Hammerhead ribozyme in the nexus (`designs.py`, `hammerhead_nexus`). -/
def hammerhead_nexus (mode : String) (A : Int)
    (ligand : String) (target : Option String) : Except Err Construct := do
  let sg ← wt_sgrna target
  let sg := { sg with name := make_name "hx" [.s mode] }
  let ins ← hammerhead_insert ligand mode A.toNat
  sg.attach ins "nexus" (.idx 2) "nexus" (.idx 11)

/-- Hammerhead ribozyme in the hairpins (`designs.py`,
`hammerhead_hairpin`). -/
def hammerhead_hairpin (mode : String) (A : Int)
    (ligand : String) (target : Option String) : Except Err Construct := do
  let sg ← wt_sgrna target
  let sg := { sg with name := make_name "hh" [.s mode] }
  let ins ← hammerhead_insert ligand mode A.toNat
  sg.attach ins "hairpins" (.idx 5) "hairpins" (.idx 17)

/-! ### The name parser (`from_name`, modelled from the spec section 4.5) -/

/-- Whether a character is one of the equivalent name delimiters
(section 4.5 step 1). -/
def isDelim (c : Char) : Bool :=
  c = '(' || c = ')' || c = ',' || c = ' ' || c = '/' || c = '-' || c = '_'

/-- Whether a character list is free of name delimiters. -/
def delimFreeL (cs : List Char) : Bool :=
  cs.all (fun c => !isDelim c)

/-- Split a character list at every delimiter (keeping empty pieces, which
are filtered afterwards). -/
def splitD : List Char → List (List Char)
  | [] => [[]]
  | c :: cs =>
    let r := splitD cs
    if isDelim c then [] :: r else (c :: r.headI) :: r.tail

/-- Keep only the non-empty pieces of a split. -/
def filterNE (ts : List (List Char)) : List (List Char) :=
  ts.filter (fun t => !t.isEmpty)

/-- Tokenize a design name on any of the equivalent delimiter styles. -/
def tokenize (s : String) : List (List Char) :=
  filterNE (splitD s.data)

/-- Coerce one token: all-digit tokens become ints, everything else stays
a string (section 4.5 step 3). -/
def coerceTok (t : List Char) : Arg :=
  match parseNatChars t with
  | some n => .i (Int.ofNat n)
  | none => .s (String.mk t)

/-- Positional int argument with an optional declared default; a non-int
token fails the way Python `int(...)` does. -/
def intArg (as_ : List Arg) (i : Nat) (d : Option Int) : Except Err Int :=
  match as_.get? i with
  | some (.i n) => .ok n
  | some (.s v) => .error (.valueError ("invalid literal for int: " ++ v))
  | some .noneA => .error (.valueError "invalid literal for int: None")
  | none =>
    match d with
    | some v => .ok v
    | none => .error (.typeError "missing required argument")

/-- Positional string argument with an optional declared default. -/
def strArg (as_ : List Arg) (i : Nat) (d : Option String) : Except Err String :=
  match as_.get? i with
  | some a => .ok (argToStr a)
  | none =>
    match d with
    | some v => .ok v
    | none => .error (.typeError "missing required argument")

/-- Positional raw argument (used where Python would pass the coerced
token through unchanged, e.g. `circle_bulge_combo`'s `combo_arg`). -/
def rawArg (as_ : List Arg) (i : Nat) : Option Arg :=
  as_.get? i

/-- Optional string argument that defaults to Python `None`. -/
def optStrArg (as_ : List Arg) (i : Nat) : Option String :=
  match as_.get? i with
  | some a => some (argToStr a)
  | none => none

/-- Fail when more positional arguments were supplied than the resolved
design function accepts. -/
def arityLE (as_ : List Arg) (n : Nat) : Except Err Unit :=
  if as_.length ≤ n then .ok () else .error (.typeError "too many arguments")

/-- Modelled from the spec: abbreviation resolution (section 4.5 step 2):
the module-level aliases of `designs.py` map the long abbreviations to the
canonical short ones.  The bare aptamer/promoter accessors and the ligand
prefixes are outside the claims and are not modelled. -/
def canonAbbr : String → String
  | "fu" => "us"
  | "fl" => "ls"
  | "fx" => "nx"
  | "fxx" => "nxx"
  | t => t

/-- Dispatch on a canonical abbreviation. -/
def dispatchName (t : String) (as_ : List Arg) : Except Err Construct :=
  match canonAbbr t with
  | "wt" => do
    let _ ← arityLE as_ 1
    wt_sgrna (optStrArg as_ 0)
  | "dead" => do
    let _ ← arityLE as_ 1
    dead_sgrna (optStrArg as_ 0)
  | "us" => do
    let _ ← arityLE as_ 6
    let n ← intArg as_ 0 none
    let l ← intArg as_ 1 (some 0)
    let s ← intArg as_ 2 (some 0)
    let a ← intArg as_ 3 (some 1)
    let lig ← strArg as_ 4 (some "theo")
    let tgt ← strArg as_ 5 (some "aavs")
    fold_upper_stem n l s a lig (some tgt)
  | "ls" => do
    let _ ← arityLE as_ 5
    let n ← intArg as_ 0 none
    let l ← intArg as_ 1 (some 0)
    let s ← intArg as_ 2 (some 0)
    let lig ← strArg as_ 3 (some "theo")
    let tgt ← strArg as_ 4 (some "aavs")
    fold_lower_stem n l s lig (some tgt)
  | "nx" => do
    let _ ← arityLE as_ 3
    let l ← intArg as_ 0 (some 0)
    let lig ← strArg as_ 1 (some "theo")
    let tgt ← strArg as_ 2 (some "aavs")
    fold_nexus l lig (some tgt)
  | "nxx" => do
    let _ ← arityLE as_ 6
    let n ← intArg as_ 0 none
    let m ← intArg as_ 1 none
    let s ← intArg as_ 2 (some 0)
    let a ← intArg as_ 3 (some 1)
    let lig ← strArg as_ 4 (some "theo")
    let tgt ← strArg as_ 5 (some "aavs")
    fold_nexus_2 n m s a lig (some tgt)
  | "fh" => do
    let _ ← arityLE as_ 5
    let h ← intArg as_ 0 none
    let n ← intArg as_ 1 none
    let a ← intArg as_ 2 (some 1)
    let lig ← strArg as_ 3 (some "theo")
    let tgt ← strArg as_ 4 (some "aavs")
    fold_hairpin h n a lig (some tgt)
  | "hp" => do
    let _ ← arityLE as_ 3
    let n ← intArg as_ 0 none
    let lig ← strArg as_ 1 (some "theo")
    let tgt ← strArg as_ 2 (some "aavs")
    replace_hairpins n lig (some tgt)
  | "id" => do
    let _ ← arityLE as_ 4
    let hf ← strArg as_ 0 none
    let n ← intArg as_ 1 none
    let tgt ← strArg as_ 2 (some "aavs")
    let lig ← strArg as_ 3 (some "theo")
    induce_dimerization hf n (some tgt) lig
  | "sb" => do
    let _ ← arityLE as_ 5
    let n ← intArg as_ 0 none
    let tn ← strArg as_ 1 (some "")
    let a ← intArg as_ 2 (some 1)
    let lig ← strArg as_ 3 (some "theo")
    let tgt ← strArg as_ 4 (some "aavs")
    serpentine_bulge n tn a lig (some tgt)
  | "sl" => do
    let _ ← arityLE as_ 4
    let tn ← strArg as_ 0 (some "")
    let a ← intArg as_ 1 (some 1)
    let lig ← strArg as_ 2 (some "theo")
    let tgt ← strArg as_ 3 (some "aavs")
    serpentine_lower_stem tn a lig (some tgt)
  | "slx" => do
    let _ ← arityLE as_ 4
    let tn ← strArg as_ 0 (some "")
    let a ← intArg as_ 1 (some 1)
    let lig ← strArg as_ 2 (some "theo")
    let tgt ← strArg as_ 3 (some "aavs")
    serpentine_lower_stem_around_nexus tn a lig (some tgt)
  | "sh" => do
    let _ ← arityLE as_ 5
    let n ← intArg as_ 0 none
    let tn ← strArg as_ 1 (some "")
    let a ← intArg as_ 2 (some 1)
    let lig ← strArg as_ 3 (some "theo")
    let tgt ← strArg as_ 4 (some "aavs")
    serpentine_hairpin n tn a lig (some tgt)
  | "cb" => do
    let _ ← arityLE as_ 4
    let tn ← strArg as_ 0 (some "")
    let a ← intArg as_ 1 (some 1)
    let lig ← strArg as_ 2 (some "theo")
    let tgt ← strArg as_ 3 (some "aavs")
    circle_bulge tn a lig (some tgt)
  | "cbc" => do
    let _ ← arityLE as_ 6
    let tn ← strArg as_ 0 none
    let cs ← strArg as_ 1 none
    let ca := rawArg as_ 2
    let a ← intArg as_ 3 (some 1)
    let lig ← strArg as_ 4 (some "theo")
    let tgt ← strArg as_ 5 (some "aavs")
    circle_bulge_combo tn cs ca a lig (some tgt)
  | "cl" => do
    let _ ← arityLE as_ 4
    let tn ← strArg as_ 0 (some "")
    let a ← intArg as_ 1 (some 1)
    let lig ← strArg as_ 2 (some "theo")
    let tgt ← strArg as_ 3 (some "aavs")
    circle_lower_stem tn a lig (some tgt)
  | "ch" => do
    let _ ← arityLE as_ 5
    let n ← intArg as_ 0 none
    let tn ← strArg as_ 1 (some "")
    let a ← intArg as_ 2 (some 1)
    let lig ← strArg as_ 3 (some "theo")
    let tgt ← strArg as_ 4 (some "aavs")
    circle_hairpin n tn a lig (some tgt)
  | "hu" => do
    let _ ← arityLE as_ 4
    let md ← strArg as_ 0 none
    let a ← intArg as_ 1 (some 1)
    let lig ← strArg as_ 2 (some "theo")
    let tgt ← strArg as_ 3 (some "aavs")
    hammerhead_upper_stem md a lig (some tgt)
  | "hx" => do
    let _ ← arityLE as_ 4
    let md ← strArg as_ 0 none
    let a ← intArg as_ 1 (some 1)
    let lig ← strArg as_ 2 (some "theo")
    let tgt ← strArg as_ 3 (some "aavs")
    hammerhead_nexus md a lig (some tgt)
  | "hh" => do
    let _ ← arityLE as_ 4
    let md ← strArg as_ 0 none
    let a ← intArg as_ 1 (some 1)
    let lig ← strArg as_ 2 (some "theo")
    let tgt ← strArg as_ 3 (some "aavs")
    hammerhead_hairpin md a lig (some tgt)
  | _ => .error (.valueError ("no such design: " ++ t))

/-- Modelled from the spec: `from_name` (section 4.5): tokenize, resolve
the abbreviation, coerce the argument tokens positionally and invoke the
design function; an empty name fails with a value error. -/
def from_name (nm : String) : Except Err Construct :=
  match tokenize nm with
  | [] => .error (.valueError "can not parse an empty name")
  | t :: rest => dispatchName (String.mk t) (rest.map coerceTok)

/-! ### Derived observations used by the verification -/

/-- Rendered sequence of a catalog result. -/
def seqOfR (r : Except Err Construct) : Except Err String :=
  r.map Construct.seqStr

/-- Canonical name of a catalog result (empty on error). -/
def nameOfR : Except Err Construct → String
  | .ok c => c.name
  | .error _ => ""

/-- Whether a catalog result is a construct. -/
def isOkB : Except Err Construct → Bool
  | .ok _ => true
  | .error _ => false

/-- Whether a catalog result is a `ValueError`. -/
def isVE : Except Err Construct → Bool
  | .error (.valueError _) => true
  | _ => false

/-- The round-trip property of section 8 of the spec for one catalog
call: parsing the canonical name of the construct it builds reproduces the
same rendered sequence. -/
def RoundTrips (r : Except Err Construct) : Prop :=
  ∀ c, r = .ok c → seqOfR (from_name c.name) = seqOfR r

/-! ## Lemmas -/

/-- Rebuilding a string from its character data is the identity. -/
theorem strMk (s : String) : String.mk s.data = s := rfl

/-- Destructuring a successful monadic bind over `Except`. -/
theorem bind_ok {α β : Type} {x : Except Err α} {f : α → Except Err β} {b : β}
    (h : (x >>= f) = .ok b) : ∃ a, x = .ok a ∧ f a = .ok b := by
  cases hx : x with
  | ok a =>
    refine ⟨a, rfl, ?_⟩
    rw [hx] at h
    exact h
  | error e =>
    rw [hx] at h
    exact absurd h (by simp [Bind.bind, Except.bind])

/-- A failing computation never binds to a success. -/
theorem bind_error {α β : Type} {e : Err} {f : α → Except Err β} :
    ((Except.error e : Except Err α) >>= f) = .error e := rfl

/-- `attach` does not change the construct's name. -/
theorem attach_name {c ins : Construct} {da db : String} {pa pb : Pos} {c' : Construct}
    (h : c.attach ins da pa db pb = .ok c') : c'.name = c.name := by
  unfold Construct.attach at h
  split at h
  case _ dA dB hA hB =>
    split at h
    · split at h
      · exact absurd h (by simp)
      · cases h
        rfl
    · exact absurd h (by simp)
  case _ => exact absurd h (by simp)

/-- `updateDomain` does not change the construct's name. -/
theorem updateDomain_name {c : Construct} {n : String}
    {f : Domain → Except Err Domain} {c' : Construct}
    (h : c.updateDomain n f = .ok c') : c'.name = c.name := by
  unfold Construct.updateDomain at h
  obtain ⟨o, ho, h2⟩ := bind_ok h
  cases o with
  | some ds =>
    simp only [pure, Except.pure] at h2
    cases h2
    rfl
  | none =>
    obtain ⟨o2, ho2, h3⟩ := bind_ok h2
    cases o2 with
    | some as_ =>
      simp only [pure, Except.pure] at h3
      cases h3
      rfl
    | none => exact absurd h3 (by simp)

/-- The round-trip property follows from one closed evaluation. -/
theorem rt_of_eval (r : Except Err Construct)
    (h : seqOfR (from_name (nameOfR r)) = seqOfR r) : RoundTrips r := by
  intro c hc
  rw [hc] at h
  simp only [nameOfR] at h
  rw [hc]
  exact h

/-- The round-trip property follows from a name computation and a parse
evaluation. -/
theorem rt_glue (r : Except Err Construct) (nm : String)
    (hn : ∀ c, r = .ok c → c.name = nm) (hf : from_name nm = r) :
    RoundTrips r := by
  intro c hc
  rw [hn c hc, hf]

/-! ### Decimal round-trip lemmas -/

/-- Reading back a digit character recovers its value. -/
theorem charDigit?_digitChar {d : Nat} (h : d < 10) :
    charDigit? (digitChar d) = some d := by
  interval_cases d <;> decide

/-- Digit characters are not name delimiters. -/
theorem isDelim_digitChar {d : Nat} (h : d < 10) :
    isDelim (digitChar d) = false := by
  interval_cases d <;> decide

/-- The decimal rendering loop does not depend on the fuel, given enough
of it. -/
theorem natToCharsAux_ext (f1 f2 n : Nat) (h1 : n < f1) (h2 : n < f2) :
    natToCharsAux f1 n = natToCharsAux f2 n := by
  induction n using Nat.strongRecOn generalizing f1 f2 with
  | _ n ih =>
    cases f1 with
    | zero => omega
    | succ g1 =>
      cases f2 with
      | zero => omega
      | succ g2 =>
        simp only [natToCharsAux]
        split
        · rfl
        · rw [ih (n / 10) (Nat.div_lt_self (by omega) (by omega)) g1 g2 (by omega) (by omega)]

/-- Decimal renderings are never empty. -/
theorem natToChars_ne_nil (n : Nat) : natToChars n ≠ [] := by
  unfold natToChars natToCharsAux
  split <;> simp

/-- Every character of a decimal rendering is a digit, hence not a
delimiter. -/
theorem natToCharsAux_delimFree : ∀ f n, delimFreeL (natToCharsAux f n) = true := by
  intro f
  induction f with
  | zero => intro n; rfl
  | succ g ih =>
    intro n
    simp only [natToCharsAux]
    split
    case isTrue h =>
      simp [delimFreeL, isDelim_digitChar h]
    case isFalse h =>
      have hm : n % 10 < 10 := Nat.mod_lt n (by omega)
      have := ih (n / 10)
      simp only [delimFreeL, List.all_append, List.all_cons, List.all_nil] at *
      simp [this, isDelim_digitChar hm]

/-- Decimal renderings contain no delimiters. -/
theorem natToChars_delimFree (n : Nat) : delimFreeL (natToChars n) = true :=
  natToCharsAux_delimFree (n + 1) n

/-- Parsing distributes over appending digit runs. -/
theorem parseNatAux_append (xs ys : List Char) (acc : Nat) :
    parseNatAux (xs ++ ys) acc =
      match parseNatAux xs acc with
      | some v => parseNatAux ys v
      | none => none := by
  induction xs generalizing acc with
  | nil => simp [parseNatAux]
  | cons c cs ih =>
    simp only [List.cons_append, parseNatAux]
    cases h : charDigit? c with
    | some d => simp [h, ih]
    | none => simp [h]

/-- Reading a decimal rendering back from any accumulator: the value is
the accumulator shifted by the rendering's magnitude plus the number. -/
theorem parse_natToChars_mult (n : Nat) :
    ∃ m, 0 < m ∧ ∀ acc, parseNatAux (natToChars n) acc = some (acc * m + n) := by
  induction n using Nat.strongRecOn with
  | _ n ih =>
    unfold natToChars
    simp only [natToCharsAux]
    by_cases h : n < 10
    · rw [if_pos h]
      refine ⟨10, by omega, fun acc => ?_⟩
      simp only [parseNatAux, charDigit?_digitChar h]
      have : 10 * acc + n = acc * 10 + n := by ring
      rw [this]
    · rw [if_neg h]
      have hdiv : n / 10 < n := Nat.div_lt_self (by omega) (by omega)
      obtain ⟨m, hm, hp⟩ := ih (n / 10) hdiv
      refine ⟨10 * m, by omega, fun acc => ?_⟩
      rw [natToCharsAux_ext n (n / 10 + 1) (n / 10) (by omega) (by omega)]
      rw [show natToCharsAux (n / 10 + 1) (n / 10) = natToChars (n / 10) from rfl]
      rw [parseNatAux_append]
      rw [hp acc]
      have hm10 : n % 10 < 10 := Nat.mod_lt n (by omega)
      simp only [parseNatAux, charDigit?_digitChar hm10]
      have hdm := Nat.div_add_mod n 10
      have : 10 * (acc * m + n / 10) + n % 10
           = acc * (10 * m) + (10 * (n / 10) + n % 10) := by ring
      rw [this, hdm]

/-- Parsing a decimal rendering recovers the number. -/
theorem parseNatChars_natToChars (n : Nat) : parseNatChars (natToChars n) = some n := by
  obtain ⟨m, hm, hp⟩ := parse_natToChars_mult n
  cases hnc : natToChars n with
  | nil => exact absurd hnc (natToChars_ne_nil n)
  | cons c cs =>
    have := hp 0
    rw [hnc] at this
    simp only [parseNatChars]
    rw [this]
    simp

/-- Coercing the rendering of a non-negative int argument recovers it. -/
theorem coerceTok_int {n : Int} (h : 0 ≤ n) : coerceTok (renderArg (.i n)) = .i n := by
  simp only [renderArg]
  rw [if_neg (by omega)]
  unfold coerceTok
  rw [parseNatChars_natToChars]
  simp [Int.toNat_of_nonneg h]

/-- Renderings of int arguments are never empty. -/
theorem renderArg_int_ne_nil (n : Int) : renderArg (.i n) ≠ [] := by
  simp only [renderArg]
  split
  · simp
  · simp [natToChars_ne_nil]

/-- Renderings of non-negative int arguments contain no delimiters. -/
theorem renderArg_int_delimFree {n : Int} (h : 0 ≤ n) :
    delimFreeL (renderArg (.i n)) = true := by
  simp only [renderArg]
  rw [if_neg (by omega)]
  exact natToChars_delimFree _

/-! ### Tokenizer lemmas -/

/-- The splitter never produces an empty list of pieces. -/
theorem splitD_ne_nil (cs : List Char) : splitD cs ≠ [] := by
  induction cs with
  | nil => simp [splitD]
  | cons c cs ih =>
    simp only [splitD]
    split <;> simp

/-- Splitting after a leading delimiter starts a fresh empty piece. -/
theorem splitD_cons_delim {c : Char} (h : isDelim c = true) (cs : List Char) :
    splitD (c :: cs) = [] :: splitD cs := by
  simp [splitD, h]

/-- Splitting after a leading non-delimiter extends the first piece. -/
theorem splitD_cons_nondelim {c : Char} (h : isDelim c = false) (cs : List Char) :
    splitD (c :: cs) = (c :: (splitD cs).headI) :: (splitD cs).tail := by
  simp [splitD, h]

/-- Splitting a delimiter-free run followed by anything extends the first
piece of the remainder with the whole run. -/
theorem splitD_append_nd {xs : List Char} (h : delimFreeL xs = true) (ys : List Char) :
    splitD (xs ++ ys) = (xs ++ (splitD ys).headI) :: (splitD ys).tail := by
  induction xs with
  | nil =>
    simp only [List.nil_append]
    cases hs : splitD ys with
    | nil => exact absurd hs (splitD_ne_nil ys)
    | cons t ts => simp
  | cons x xs ih =>
    simp only [delimFreeL, List.all_cons, Bool.and_eq_true] at h
    have hx : isDelim x = false := by
      rcases h with ⟨h1, _⟩
      simpa using h1
    have hxs : delimFreeL xs = true := by
      rcases h with ⟨_, h2⟩
      simpa [delimFreeL] using h2
    rw [List.cons_append, splitD_cons_nondelim hx, ih hxs]
    simp

/-- A non-empty piece survives the emptiness filter. -/
theorem filterNE_keep {r : List Char} (h : r ≠ []) (ts : List (List Char)) :
    filterNE (r :: ts) = r :: filterNE ts := by
  unfold filterNE
  rw [List.filter_cons_of_pos (by simpa using h)]

/-- Reading the comma-joined rendered arguments (with the closing paren)
back out of the splitter recovers exactly the arguments. -/
theorem tokens_join : ∀ rs : List (List Char),
    (∀ r ∈ rs, r ≠ [] ∧ delimFreeL r = true) →
    filterNE (splitD (commaJoin rs ++ [')'])) = rs := by
  intro rs
  induction rs with
  | nil => intro _; rfl
  | cons r rest ih =>
    intro hr
    obtain ⟨hne, hdf⟩ := hr r (by simp)
    cases rest with
    | nil =>
      simp only [commaJoin]
      rw [splitD_append_nd hdf [')']]
      rw [show splitD [')'] = [[], []] from rfl]
      simp only [List.headI, List.tail, List.append_nil]
      rw [filterNE_keep hne]
      rfl
    | cons r2 rest2 =>
      have hjoin : commaJoin (r :: r2 :: rest2) = r ++ ',' :: commaJoin (r2 :: rest2) := rfl
      rw [hjoin, List.append_assoc]
      rw [show (',' :: commaJoin (r2 :: rest2)) ++ [')']
            = ',' :: (commaJoin (r2 :: rest2) ++ [')']) from rfl]
      rw [splitD_append_nd hdf (',' :: (commaJoin (r2 :: rest2) ++ [')']))]
      rw [splitD_cons_delim (by decide) (commaJoin (r2 :: rest2) ++ [')'])]
      simp only [List.headI, List.tail, List.append_nil]
      rw [filterNE_keep hne]
      rw [ih (fun x hx => hr x (by simp [hx]))]

/-- Tokenizing a canonical name with arguments yields the abbreviation
followed by the rendered arguments. -/
theorem tokens_name {abbr : List Char} (ha : abbr ≠ []) (hd : delimFreeL abbr = true)
    (rs : List (List Char)) (hrs : ∀ r ∈ rs, r ≠ [] ∧ delimFreeL r = true) :
    filterNE (splitD (abbr ++ '(' :: (commaJoin rs ++ [')']))) = abbr :: rs := by
  rw [splitD_append_nd hd ('(' :: (commaJoin rs ++ [')']))]
  rw [splitD_cons_delim (by decide) (commaJoin rs ++ [')'])]
  simp only [List.headI, List.tail, List.append_nil]
  rw [filterNE_keep ha]
  rw [tokens_join rs hrs]

/-- Tokenizing a bare abbreviation yields just the abbreviation. -/
theorem tokens_bare {abbr : List Char} (ha : abbr ≠ []) (hd : delimFreeL abbr = true) :
    filterNE (splitD abbr) = [abbr] := by
  have h2 := splitD_append_nd hd []
  rw [List.append_nil] at h2
  rw [h2]
  rw [show splitD ([] : List Char) = [[]] from rfl]
  simp only [List.headI, List.tail, List.append_nil]
  rw [filterNE_keep ha]
  rfl

/-- Rebuilding a string from raw character data gives those characters. -/
theorem mkData (cs : List Char) : (String.mk cs).data = cs := rfl

/-- Parsing a canonical name dispatches the abbreviation on the coerced
renderings of the trimmed arguments. -/
theorem from_name_make (abbr : String) (args : List Arg)
    (ha : abbr.data ≠ []) (hd : delimFreeL abbr.data = true)
    (hrs : ∀ a ∈ trimArgs args (schemaDefaults abbr),
      renderArg a ≠ [] ∧ delimFreeL (renderArg a) = true) :
    from_name (make_name abbr args) =
      dispatchName abbr ((trimArgs args (schemaDefaults abbr)).map
        (fun a => coerceTok (renderArg a))) := by
  unfold make_name
  cases hT : trimArgs args (schemaDefaults abbr) with
  | nil =>
    rw [if_pos (by simp)]
    unfold from_name tokenize
    rw [tokens_bare ha hd]
    simp [strMk]
  | cons a0 rest =>
    rw [if_neg (by simp)]
    unfold from_name tokenize
    have hrs' : ∀ r ∈ (a0 :: rest).map renderArg, r ≠ [] ∧ delimFreeL r = true := by
      intro r hrm
      rw [List.mem_map] at hrm
      obtain ⟨a, hain, haeq⟩ := hrm
      rw [← haeq]
      exact hrs a (hT ▸ hain)
    rw [mkData]
    rw [tokens_name ha hd ((a0 :: rest).map renderArg) hrs']
    simp only [strMk, List.map_map]
    rfl

/-! ### Tuning and mode extraction -/

/-- An unrecognized tuning code fails. -/
theorem applyTuning_ne {sq : List Char} {t : String} (h0 : t ≠ "") (h1 : t ≠ "wo") :
    applyTuning sq t = .error (.valueError ("unrecognized tuning strategy: " ++ t)) := by
  unfold applyTuning
  split
  · exact absurd rfl h0
  · exact absurd rfl h1
  · rfl

/-- A successful tuning application means the code was recognized. -/
theorem applyTuning_ok {sq : List Char} {t : String} {y : List Char}
    (h : applyTuning sq t = .ok y) : t = "" ∨ t = "wo" := by
  by_cases h0 : t = ""
  · exact Or.inl h0
  by_cases h1 : t = "wo"
  · exact Or.inr h1
  rw [applyTuning_ne h0 h1] at h
  exact absurd h (by simp)

/-- A successful tunable switch means the tuning code was recognized. -/
theorem tunable_switch_ok {sq : List Char} {t : String} {v : Domain × Domain × Domain}
    (h : tunable_switch sq t = .ok v) : t = "" ∨ t = "wo" := by
  unfold tunable_switch at h
  obtain ⟨y, hy, _⟩ := bind_ok h
  exact applyTuning_ok hy

/-- A successful serpentine insert means the tuning code was recognized. -/
theorem serpentine_insert_tuning {lig : String} {sq : List Char} {side t : String}
    {turn : List Char} {a : Nat} {ins : Construct}
    (h : serpentine_insert lig sq side t turn a = .ok ins) : t = "" ∨ t = "wo" := by
  unfold serpentine_insert at h
  obtain ⟨v, hv, _⟩ := bind_ok h
  exact tunable_switch_ok hv

/-- A successful circle insert means the tuning code was recognized. -/
theorem circle_insert_tuning {lig : String} {sq : List Char} {side t : String}
    {a : Nat} {ins : Construct}
    (h : circle_insert lig sq side t a = .ok ins) : t = "" ∨ t = "wo" := by
  unfold circle_insert at h
  obtain ⟨v, hv, _⟩ := bind_ok h
  exact tunable_switch_ok hv

/-- A successful hammerhead insert means the mode was recognized. -/
theorem hammerhead_insert_mode {lig m : String} {a : Nat} {ins : Construct}
    (h : hammerhead_insert lig m a = .ok ins) : m = "on" ∨ m = "off" := by
  unfold hammerhead_insert at h
  obtain ⟨apt, hapt, h2⟩ := bind_ok h
  by_cases hm : m = "on" ∨ m = "off"
  · exact hm
  · rw [if_neg hm] at h2
    exact absurd h2 (by simp)

/-- Token conditions for a non-negative int argument. -/
theorem renderOK_int {n : Int} (h : 0 ≤ n) :
    renderArg (.i n) ≠ [] ∧ delimFreeL (renderArg (.i n)) = true :=
  ⟨renderArg_int_ne_nil n, renderArg_int_delimFree h⟩

/-- A trim stops at an int argument that differs from its default. -/
theorem trim_stop_int {d l : Int} (h : ¬ (d = l)) (rest : List (Arg × Option Arg)) :
    List.dropWhile (fun p => decide (p.2 = some p.1)) ((Arg.i l, some (Arg.i d)) :: rest)
      = (Arg.i l, some (Arg.i d)) :: rest := by
  rw [List.dropWhile_cons, if_neg (by simp [h])]

/-! ### Round trips of the individual catalog functions -/

/-- Round trip of the wildtype seed. -/
theorem rt_wt : RoundTrips (wt_sgrna none) :=
  rt_of_eval _ (by decide)

/-- Round trip of the dead control. -/
theorem rt_dead : RoundTrips (dead_sgrna none) :=
  rt_of_eval _ (by decide)

/-- Round trip of `serpentine_lower_stem`. -/
theorem rt_sl (t : String) : RoundTrips (serpentine_lower_stem t 1 "theo" (some "aavs")) := by
  by_cases h0 : t = ""
  · subst h0
    exact rt_of_eval _ (by decide)
  by_cases h1 : t = "wo"
  · subst h1
    exact rt_of_eval _ (by decide)
  intro c h
  exfalso
  unfold serpentine_lower_stem at h
  obtain ⟨sg, hsg, h2⟩ := bind_ok h
  obtain ⟨ins, hins, h3⟩ := bind_ok h2
  rcases serpentine_insert_tuning hins with h' | h'
  · exact h0 h'
  · exact h1 h'

/-- Round trip of `serpentine_lower_stem_around_nexus`. -/
theorem rt_slx (t : String) :
    RoundTrips (serpentine_lower_stem_around_nexus t 1 "theo" (some "aavs")) := by
  by_cases h0 : t = ""
  · subst h0
    exact rt_of_eval _ (by decide)
  by_cases h1 : t = "wo"
  · subst h1
    exact rt_of_eval _ (by decide)
  intro c h
  exfalso
  unfold serpentine_lower_stem_around_nexus at h
  obtain ⟨sg, hsg, h2⟩ := bind_ok h
  obtain ⟨ins, hins, h3⟩ := bind_ok h2
  rcases serpentine_insert_tuning hins with h' | h'
  · exact h0 h'
  · exact h1 h'

/-- Round trip of `circle_bulge`. -/
theorem rt_cb (t : String) : RoundTrips (circle_bulge t 1 "theo" (some "aavs")) := by
  by_cases h0 : t = ""
  · subst h0
    exact rt_of_eval _ (by decide)
  by_cases h1 : t = "wo"
  · subst h1
    exact rt_of_eval _ (by decide)
  intro c h
  exfalso
  unfold circle_bulge at h
  obtain ⟨sg, hsg, h2⟩ := bind_ok h
  obtain ⟨ins, hins, h3⟩ := bind_ok h2
  rcases circle_insert_tuning hins with h' | h'
  · exact h0 h'
  · exact h1 h'

/-- Round trip of `circle_lower_stem`. -/
theorem rt_cl (t : String) : RoundTrips (circle_lower_stem t 1 "theo" (some "aavs")) := by
  by_cases h0 : t = ""
  · subst h0
    exact rt_of_eval _ (by decide)
  by_cases h1 : t = "wo"
  · subst h1
    exact rt_of_eval _ (by decide)
  intro c h
  exfalso
  unfold circle_lower_stem at h
  obtain ⟨sg, hsg, h2⟩ := bind_ok h
  obtain ⟨ins, hins, h3⟩ := bind_ok h2
  rcases circle_insert_tuning hins with h' | h'
  · exact h0 h'
  · exact h1 h'

/-- Round trip of `hammerhead_upper_stem`. -/
theorem rt_hu (m : String) : RoundTrips (hammerhead_upper_stem m 1 "theo" (some "aavs")) := by
  by_cases h0 : m = "on"
  · subst h0
    exact rt_of_eval _ (by decide)
  by_cases h1 : m = "off"
  · subst h1
    exact rt_of_eval _ (by decide)
  intro c h
  exfalso
  unfold hammerhead_upper_stem at h
  obtain ⟨sg, hsg, h2⟩ := bind_ok h
  obtain ⟨ins, hins, h3⟩ := bind_ok h2
  rcases hammerhead_insert_mode hins with h' | h'
  · exact h0 h'
  · exact h1 h'

/-- Round trip of `hammerhead_nexus`. -/
theorem rt_hx (m : String) : RoundTrips (hammerhead_nexus m 1 "theo" (some "aavs")) := by
  by_cases h0 : m = "on"
  · subst h0
    exact rt_of_eval _ (by decide)
  by_cases h1 : m = "off"
  · subst h1
    exact rt_of_eval _ (by decide)
  intro c h
  exfalso
  unfold hammerhead_nexus at h
  obtain ⟨sg, hsg, h2⟩ := bind_ok h
  obtain ⟨ins, hins, h3⟩ := bind_ok h2
  rcases hammerhead_insert_mode hins with h' | h'
  · exact h0 h'
  · exact h1 h'

/-- Round trip of `hammerhead_hairpin`. -/
theorem rt_hh (m : String) : RoundTrips (hammerhead_hairpin m 1 "theo" (some "aavs")) := by
  by_cases h0 : m = "on"
  · subst h0
    exact rt_of_eval _ (by decide)
  by_cases h1 : m = "off"
  · subst h1
    exact rt_of_eval _ (by decide)
  intro c h
  exfalso
  unfold hammerhead_hairpin at h
  obtain ⟨sg, hsg, h2⟩ := bind_ok h
  obtain ⟨ins, hins, h3⟩ := bind_ok h2
  rcases hammerhead_insert_mode hins with h' | h'
  · exact h0 h'
  · exact h1 h'

/-- Round trip of `fold_upper_stem` for valid linker, splitter and
aptamer-count arguments. -/
theorem rt_us (N l s a : Int) (hl : 0 ≤ l) (hs : 0 ≤ s) (ha : 1 ≤ a) :
    RoundTrips (fold_upper_stem N l s a "theo" (some "aavs")) := by
  intro c h
  unfold fold_upper_stem at h
  by_cases hv : ¬ (0 ≤ N ∧ N ≤ 4)
  · rw [if_pos hv] at h
    exact absurd h (by simp)
  rw [if_neg hv] at h
  rw [not_not] at hv
  obtain ⟨hN0, hN4⟩ := hv
  obtain ⟨sg, hsg, h2⟩ := bind_ok h
  obtain ⟨ins, hins, h3⟩ := bind_ok h2
  have hname : c.name = make_name "us"
      (if a ≠ 1 then [Arg.i N, Arg.i l, Arg.i s, Arg.i a]
       else if s ≠ 0 then [Arg.i N, Arg.i l, Arg.i s]
       else [Arg.i N, Arg.i l]) := attach_name h3
  rw [hname]
  by_cases ha1 : a = 1
  · subst ha1
    rw [if_neg (by simp)]
    by_cases hs0 : s = 0
    · subst hs0
      rw [if_neg (by simp)]
      by_cases hl0 : l = 0
      · subst hl0
        rw [from_name_make "us" [Arg.i N, Arg.i 0] (by decide) (by decide)
            (by rw [show trimArgs [Arg.i N, Arg.i 0] (schemaDefaults "us") = [Arg.i N] from rfl]
                intro x hx
                rw [List.mem_singleton] at hx
                subst hx
                exact renderOK_int hN0)]
        rw [show trimArgs [Arg.i N, Arg.i 0] (schemaDefaults "us") = [Arg.i N] from rfl]
        simp only [List.map]
        rw [coerceTok_int hN0]
        rfl
      · have hT : trimArgs [Arg.i N, Arg.i l] (schemaDefaults "us") = [Arg.i N, Arg.i l] := by
          unfold trimArgs
          rw [show ([Arg.i N, Arg.i l].zip
                (padDefaults (schemaDefaults "us") [Arg.i N, Arg.i l].length)).reverse
              = [(Arg.i l, some (Arg.i 0)), (Arg.i N, none)] from rfl]
          rw [trim_stop_int (by omega) _]
          rfl
        rw [from_name_make "us" [Arg.i N, Arg.i l] (by decide) (by decide)
            (by rw [hT]
                intro x hx
                rw [List.mem_cons, List.mem_singleton] at hx
                rcases hx with hx | hx <;> subst hx
                · exact renderOK_int hN0
                · exact renderOK_int hl)]
        rw [hT]
        simp only [List.map]
        rw [coerceTok_int hN0, coerceTok_int hl]
        rfl
    · rw [if_pos hs0]
      have hT : trimArgs [Arg.i N, Arg.i l, Arg.i s] (schemaDefaults "us")
          = [Arg.i N, Arg.i l, Arg.i s] := by
        unfold trimArgs
        rw [show ([Arg.i N, Arg.i l, Arg.i s].zip
              (padDefaults (schemaDefaults "us") [Arg.i N, Arg.i l, Arg.i s].length)).reverse
            = [(Arg.i s, some (Arg.i 0)), (Arg.i l, some (Arg.i 0)), (Arg.i N, none)] from rfl]
        rw [trim_stop_int (by omega) _]
        rfl
      rw [from_name_make "us" [Arg.i N, Arg.i l, Arg.i s] (by decide) (by decide)
          (by rw [hT]
              intro x hx
              rw [List.mem_cons, List.mem_cons, List.mem_singleton] at hx
              rcases hx with hx | hx | hx <;> subst hx
              · exact renderOK_int hN0
              · exact renderOK_int hl
              · exact renderOK_int hs)]
      rw [hT]
      simp only [List.map]
      rw [coerceTok_int hN0, coerceTok_int hl, coerceTok_int hs]
      rfl
  · rw [if_pos ha1]
    have hT : trimArgs [Arg.i N, Arg.i l, Arg.i s, Arg.i a] (schemaDefaults "us")
        = [Arg.i N, Arg.i l, Arg.i s, Arg.i a] := by
      unfold trimArgs
      rw [show ([Arg.i N, Arg.i l, Arg.i s, Arg.i a].zip
            (padDefaults (schemaDefaults "us") [Arg.i N, Arg.i l, Arg.i s, Arg.i a].length)).reverse
          = [(Arg.i a, some (Arg.i 1)), (Arg.i s, some (Arg.i 0)),
             (Arg.i l, some (Arg.i 0)), (Arg.i N, none)] from rfl]
      rw [trim_stop_int (by omega) _]
      rfl
    rw [from_name_make "us" [Arg.i N, Arg.i l, Arg.i s, Arg.i a] (by decide) (by decide)
        (by rw [hT]
            intro x hx
            rw [List.mem_cons, List.mem_cons, List.mem_cons, List.mem_singleton] at hx
            rcases hx with hx | hx | hx | hx <;> subst hx
            · exact renderOK_int hN0
            · exact renderOK_int hl
            · exact renderOK_int hs
            · exact renderOK_int (by omega))]
    rw [hT]
    simp only [List.map]
    rw [coerceTok_int hN0, coerceTok_int hl, coerceTok_int hs, coerceTok_int (by omega)]
    rfl

/-- Round trip of `fold_lower_stem` for valid linker and splitter
arguments. -/
theorem rt_ls (N l s : Int) (hl : 0 ≤ l) (hs : 0 ≤ s) :
    RoundTrips (fold_lower_stem N l s "theo" (some "aavs")) := by
  intro c h
  unfold fold_lower_stem at h
  by_cases hv : ¬ (0 ≤ N ∧ N ≤ 6)
  · rw [if_pos hv] at h
    exact absurd h (by simp)
  rw [if_neg hv] at h
  rw [not_not] at hv
  obtain ⟨hN0, hN6⟩ := hv
  obtain ⟨sg, hsg, h2⟩ := bind_ok h
  obtain ⟨ins, hins, h3⟩ := bind_ok h2
  have hname : c.name = make_name "ls"
      (if s ≠ 0 then [Arg.i N, Arg.i l, Arg.i s]
       else [Arg.i N, Arg.i l]) := attach_name h3
  rw [hname]
  by_cases hs0 : s = 0
  · subst hs0
    rw [if_neg (by simp)]
    by_cases hl0 : l = 0
    · subst hl0
      rw [from_name_make "ls" [Arg.i N, Arg.i 0] (by decide) (by decide)
          (by rw [show trimArgs [Arg.i N, Arg.i 0] (schemaDefaults "ls") = [Arg.i N] from rfl]
              intro x hx
              rw [List.mem_singleton] at hx
              subst hx
              exact renderOK_int hN0)]
      rw [show trimArgs [Arg.i N, Arg.i 0] (schemaDefaults "ls") = [Arg.i N] from rfl]
      simp only [List.map]
      rw [coerceTok_int hN0]
      rfl
    · have hT : trimArgs [Arg.i N, Arg.i l] (schemaDefaults "ls") = [Arg.i N, Arg.i l] := by
        unfold trimArgs
        rw [show ([Arg.i N, Arg.i l].zip
              (padDefaults (schemaDefaults "ls") [Arg.i N, Arg.i l].length)).reverse
            = [(Arg.i l, some (Arg.i 0)), (Arg.i N, none)] from rfl]
        rw [trim_stop_int (by omega) _]
        rfl
      rw [from_name_make "ls" [Arg.i N, Arg.i l] (by decide) (by decide)
          (by rw [hT]
              intro x hx
              rw [List.mem_cons, List.mem_singleton] at hx
              rcases hx with hx | hx <;> subst hx
              · exact renderOK_int hN0
              · exact renderOK_int hl)]
      rw [hT]
      simp only [List.map]
      rw [coerceTok_int hN0, coerceTok_int hl]
      rfl
  · rw [if_pos hs0]
    have hT : trimArgs [Arg.i N, Arg.i l, Arg.i s] (schemaDefaults "ls")
        = [Arg.i N, Arg.i l, Arg.i s] := by
      unfold trimArgs
      rw [show ([Arg.i N, Arg.i l, Arg.i s].zip
            (padDefaults (schemaDefaults "ls") [Arg.i N, Arg.i l, Arg.i s].length)).reverse
          = [(Arg.i s, some (Arg.i 0)), (Arg.i l, some (Arg.i 0)), (Arg.i N, none)] from rfl]
      rw [trim_stop_int (by omega) _]
      rfl
    rw [from_name_make "ls" [Arg.i N, Arg.i l, Arg.i s] (by decide) (by decide)
        (by rw [hT]
            intro x hx
            rw [List.mem_cons, List.mem_cons, List.mem_singleton] at hx
            rcases hx with hx | hx | hx <;> subst hx
            · exact renderOK_int hN0
            · exact renderOK_int hl
            · exact renderOK_int hs)]
    rw [hT]
    simp only [List.map]
    rw [coerceTok_int hN0, coerceTok_int hl, coerceTok_int hs]
    rfl

/-- Round trip of `fold_nexus` for valid linker arguments. -/
theorem rt_nx (l : Int) (hl : 0 ≤ l) :
    RoundTrips (fold_nexus l "theo" (some "aavs")) := by
  intro c h
  unfold fold_nexus at h
  obtain ⟨sg, hsg, h2⟩ := bind_ok h
  obtain ⟨ins, hins, h3⟩ := bind_ok h2
  have hname : c.name = make_name "nx" [Arg.i l] := attach_name h3
  rw [hname]
  by_cases hl0 : l = 0
  · subst hl0
    rw [from_name_make "nx" [Arg.i 0] (by decide) (by decide)
        (by rw [show trimArgs [Arg.i 0] (schemaDefaults "nx") = [] from rfl]
            intro x hx
            exact absurd hx (by simp))]
    rw [show trimArgs [Arg.i 0] (schemaDefaults "nx") = [] from rfl]
    simp only [List.map]
    rfl
  · have hT : trimArgs [Arg.i l] (schemaDefaults "nx") = [Arg.i l] := by
      unfold trimArgs
      rw [show ([Arg.i l].zip (padDefaults (schemaDefaults "nx") [Arg.i l].length)).reverse
          = [(Arg.i l, some (Arg.i 0))] from rfl]
      rw [trim_stop_int (by omega) _]
      rfl
    rw [from_name_make "nx" [Arg.i l] (by decide) (by decide)
        (by rw [hT]
            intro x hx
            rw [List.mem_singleton] at hx
            subst hx
            exact renderOK_int hl)]
    rw [hT]
    simp only [List.map]
    rw [coerceTok_int hl]
    rfl

/-- Round trip of `fold_nexus_2` for valid splitter and aptamer-count
arguments. -/
theorem rt_nxx (N M s a : Int) (hs : 0 ≤ s) (ha : 1 ≤ a) :
    RoundTrips (fold_nexus_2 N M s a "theo" (some "aavs")) := by
  intro c h
  unfold fold_nexus_2 at h
  obtain ⟨msC, hms, h1⟩ := bind_ok h
  by_cases hv1 : ¬ (0 ≤ N ∧ N ≤ 4)
  · rw [if_pos hv1] at h1
    exact absurd h1 (by simp)
  rw [if_neg hv1] at h1
  rw [not_not] at hv1
  obtain ⟨hN0, hN4⟩ := hv1
  by_cases hv2 : ¬ (0 ≤ M ∧ M ≤ 5)
  · rw [if_pos hv2] at h1
    exact absurd h1 (by simp)
  rw [if_neg hv2] at h1
  rw [not_not] at hv2
  obtain ⟨hM0, hM5⟩ := hv2
  by_cases hv3 : 0 < s ∧ s ≤ Int.ofNat msC.lengthC
  · rw [if_pos hv3] at h1
    exact absurd h1 (by simp)
  rw [if_neg hv3] at h1
  by_cases hv4 : a < 1
  · rw [if_pos hv4] at h1
    exact absurd h1 (by simp)
  rw [if_neg hv4] at h1
  obtain ⟨sg, hsg, h2⟩ := bind_ok h1
  obtain ⟨ins, hins, h3⟩ := bind_ok h2
  have hname : c.name = make_name "nxx"
      (if a ≠ 1 then [Arg.i N, Arg.i M, Arg.i s, Arg.i a]
       else if s ≠ 0 then [Arg.i N, Arg.i M, Arg.i s]
       else [Arg.i N, Arg.i M]) := attach_name h3
  rw [hname]
  by_cases ha1 : a = 1
  · subst ha1
    rw [if_neg (by simp)]
    by_cases hs0 : s = 0
    · subst hs0
      rw [if_neg (by simp)]
      rw [from_name_make "nxx" [Arg.i N, Arg.i M] (by decide) (by decide)
          (by rw [show trimArgs [Arg.i N, Arg.i M] (schemaDefaults "nxx")
                = [Arg.i N, Arg.i M] from rfl]
              intro x hx
              rw [List.mem_cons, List.mem_singleton] at hx
              rcases hx with hx | hx <;> subst hx
              · exact renderOK_int hN0
              · exact renderOK_int hM0)]
      rw [show trimArgs [Arg.i N, Arg.i M] (schemaDefaults "nxx") = [Arg.i N, Arg.i M] from rfl]
      simp only [List.map]
      rw [coerceTok_int hN0, coerceTok_int hM0]
      rfl
    · rw [if_pos hs0]
      have hT : trimArgs [Arg.i N, Arg.i M, Arg.i s] (schemaDefaults "nxx")
          = [Arg.i N, Arg.i M, Arg.i s] := by
        unfold trimArgs
        rw [show ([Arg.i N, Arg.i M, Arg.i s].zip
              (padDefaults (schemaDefaults "nxx") [Arg.i N, Arg.i M, Arg.i s].length)).reverse
            = [(Arg.i s, some (Arg.i 0)), (Arg.i M, none), (Arg.i N, none)] from rfl]
        rw [trim_stop_int (by omega) _]
        rfl
      rw [from_name_make "nxx" [Arg.i N, Arg.i M, Arg.i s] (by decide) (by decide)
          (by rw [hT]
              intro x hx
              rw [List.mem_cons, List.mem_cons, List.mem_singleton] at hx
              rcases hx with hx | hx | hx <;> subst hx
              · exact renderOK_int hN0
              · exact renderOK_int hM0
              · exact renderOK_int hs)]
      rw [hT]
      simp only [List.map]
      rw [coerceTok_int hN0, coerceTok_int hM0, coerceTok_int hs]
      rfl
  · rw [if_pos ha1]
    have hT : trimArgs [Arg.i N, Arg.i M, Arg.i s, Arg.i a] (schemaDefaults "nxx")
        = [Arg.i N, Arg.i M, Arg.i s, Arg.i a] := by
      unfold trimArgs
      rw [show ([Arg.i N, Arg.i M, Arg.i s, Arg.i a].zip
            (padDefaults (schemaDefaults "nxx") [Arg.i N, Arg.i M, Arg.i s, Arg.i a].length)).reverse
          = [(Arg.i a, some (Arg.i 1)), (Arg.i s, some (Arg.i 0)),
             (Arg.i M, none), (Arg.i N, none)] from rfl]
      rw [trim_stop_int (by omega) _]
      rfl
    rw [from_name_make "nxx" [Arg.i N, Arg.i M, Arg.i s, Arg.i a] (by decide) (by decide)
        (by rw [hT]
            intro x hx
            rw [List.mem_cons, List.mem_cons, List.mem_cons, List.mem_singleton] at hx
            rcases hx with hx | hx | hx | hx <;> subst hx
            · exact renderOK_int hN0
            · exact renderOK_int hM0
            · exact renderOK_int hs
            · exact renderOK_int (by omega))]
    rw [hT]
    simp only [List.map]
    rw [coerceTok_int hN0, coerceTok_int hM0, coerceTok_int hs, coerceTok_int (by omega)]
    rfl

/-- Round trip of `fold_hairpin`. -/
theorem rt_fh (H N : Int) : RoundTrips (fold_hairpin H N 1 "theo" (some "aavs")) := by
  intro c h
  unfold fold_hairpin at h
  by_cases hv1 : ¬ (H = 1 ∨ H = 2)
  · rw [if_pos hv1] at h
    exact absurd h (by simp)
  rw [if_neg hv1] at h
  rw [not_not] at hv1
  have hH0 : 0 ≤ H := by rcases hv1 with h' | h' <;> omega
  by_cases hv2 : ¬ (0 ≤ N ∧ N ≤ if H = 1 then (4 : Int) else 6)
  · rw [if_pos hv2] at h
    exact absurd h (by simp)
  rw [if_neg hv2] at h
  rw [not_not] at hv2
  obtain ⟨hN0, _⟩ := hv2
  obtain ⟨sg, hsg, h2⟩ := bind_ok h
  obtain ⟨ins, hins, h3⟩ := bind_ok h2
  have hname : c.name = make_name "fh" [Arg.i H, Arg.i N] := attach_name h3
  rw [hname]
  rw [from_name_make "fh" [Arg.i H, Arg.i N] (by decide) (by decide)
      (by rw [show trimArgs [Arg.i H, Arg.i N] (schemaDefaults "fh")
            = [Arg.i H, Arg.i N] from rfl]
          intro x hx
          rw [List.mem_cons, List.mem_singleton] at hx
          rcases hx with hx | hx <;> subst hx
          · exact renderOK_int hH0
          · exact renderOK_int hN0)]
  rw [show trimArgs [Arg.i H, Arg.i N] (schemaDefaults "fh") = [Arg.i H, Arg.i N] from rfl]
  simp only [List.map]
  rw [coerceTok_int hH0, coerceTok_int hN0]
  rfl

/-- Round trip of `replace_hairpins` for non-negative truncation
arguments. -/
theorem rt_hp (N : Int) (hN : 0 ≤ N) :
    RoundTrips (replace_hairpins N "theo" (some "aavs")) := by
  intro c h
  unfold replace_hairpins at h
  obtain ⟨sg, hsg, h1⟩ := bind_ok h
  obtain ⟨dl, hdl, h2⟩ := bind_ok h1
  obtain ⟨ins, hins, h3⟩ := bind_ok h2
  have hname : c.name = make_name "hp" [Arg.i N] := attach_name h3
  rw [hname]
  rw [from_name_make "hp" [Arg.i N] (by decide) (by decide)
      (by rw [show trimArgs [Arg.i N] (schemaDefaults "hp") = [Arg.i N] from rfl]
          intro x hx
          rw [List.mem_singleton] at hx
          subst hx
          exact renderOK_int hN)]
  rw [show trimArgs [Arg.i N] (schemaDefaults "hp") = [Arg.i N] from rfl]
  simp only [List.map]
  rw [coerceTok_int hN]
  rfl

/-- Round trip of `induce_dimerization`. -/
theorem rt_id (hf : String) (N : Int) :
    RoundTrips (induce_dimerization hf N (some "aavs") "theo") := by
  intro c h
  unfold induce_dimerization at h
  by_cases hv : ¬ (0 ≤ N ∧ N ≤ 4)
  · rw [if_pos hv] at h
    exact absurd h (by simp)
  rw [if_neg hv] at h
  rw [not_not] at hv
  obtain ⟨hN0, _⟩ := hv
  obtain ⟨wt, hwt, h2⟩ := bind_ok h
  by_cases hh5 : hf = "5"
  · subst hh5
    rw [if_pos rfl] at h2
    obtain ⟨apt, hapt, h3⟩ := bind_ok h2
    have hname : c.name = make_name "id" [Arg.s "5", Arg.i N] := attach_name h3
    rw [hname]
    rw [from_name_make "id" [Arg.s "5", Arg.i N] (by decide) (by decide)
        (by rw [show trimArgs [Arg.s "5", Arg.i N] (schemaDefaults "id")
              = [Arg.s "5", Arg.i N] from rfl]
            intro x hx
            rw [List.mem_cons, List.mem_singleton] at hx
            rcases hx with hx | hx <;> subst hx
            · exact ⟨by decide, by decide⟩
            · exact renderOK_int hN0)]
    rw [show trimArgs [Arg.s "5", Arg.i N] (schemaDefaults "id") = [Arg.s "5", Arg.i N] from rfl]
    simp only [List.map]
    rw [coerceTok_int hN0]
    rw [show coerceTok (renderArg (Arg.s "5")) = Arg.i 5 from rfl]
    rfl
  rw [if_neg hh5] at h2
  by_cases hh3 : hf = "3"
  · subst hh3
    rw [if_pos rfl] at h2
    obtain ⟨apt, hapt, h3⟩ := bind_ok h2
    have hname : c.name = make_name "id" [Arg.s "3", Arg.i N] := attach_name h3
    rw [hname]
    rw [from_name_make "id" [Arg.s "3", Arg.i N] (by decide) (by decide)
        (by rw [show trimArgs [Arg.s "3", Arg.i N] (schemaDefaults "id")
              = [Arg.s "3", Arg.i N] from rfl]
            intro x hx
            rw [List.mem_cons, List.mem_singleton] at hx
            rcases hx with hx | hx <;> subst hx
            · exact ⟨by decide, by decide⟩
            · exact renderOK_int hN0)]
    rw [show trimArgs [Arg.s "3", Arg.i N] (schemaDefaults "id") = [Arg.s "3", Arg.i N] from rfl]
    simp only [List.map]
    rw [coerceTok_int hN0]
    rw [show coerceTok (renderArg (Arg.s "3")) = Arg.i 3 from rfl]
    rfl
  rw [if_neg hh3] at h2
  exact absurd h2 (by simp)

/-- Round trip of `serpentine_bulge`. -/
theorem rt_sb (N : Int) (t : String) :
    RoundTrips (serpentine_bulge N t 1 "theo" (some "aavs")) := by
  intro c h
  unfold serpentine_bulge at h
  by_cases hv : N < 2
  · rw [if_pos hv] at h
    exact absurd h (by simp)
  rw [if_neg hv] at h
  have hN0 : 0 ≤ N := by omega
  obtain ⟨sg, hsg, h2⟩ := bind_ok h
  obtain ⟨ins, hins, h3⟩ := bind_ok h2
  obtain ⟨sg2, hat, hupd⟩ := bind_ok h3
  have hname : c.name = make_name "sb" [Arg.i N, Arg.s t] :=
    (updateDomain_name hupd).trans (attach_name hat)
  rw [hname]
  rcases serpentine_insert_tuning hins with ht | ht
  · subst ht
    rw [from_name_make "sb" [Arg.i N, Arg.s ""] (by decide) (by decide)
        (by rw [show trimArgs [Arg.i N, Arg.s ""] (schemaDefaults "sb") = [Arg.i N] from rfl]
            intro x hx
            rw [List.mem_singleton] at hx
            subst hx
            exact renderOK_int hN0)]
    rw [show trimArgs [Arg.i N, Arg.s ""] (schemaDefaults "sb") = [Arg.i N] from rfl]
    simp only [List.map]
    rw [coerceTok_int hN0]
    rfl
  · subst ht
    rw [from_name_make "sb" [Arg.i N, Arg.s "wo"] (by decide) (by decide)
        (by rw [show trimArgs [Arg.i N, Arg.s "wo"] (schemaDefaults "sb")
              = [Arg.i N, Arg.s "wo"] from rfl]
            intro x hx
            rw [List.mem_cons, List.mem_singleton] at hx
            rcases hx with hx | hx <;> subst hx
            · exact renderOK_int hN0
            · exact ⟨by decide, by decide⟩)]
    rw [show trimArgs [Arg.i N, Arg.s "wo"] (schemaDefaults "sb") = [Arg.i N, Arg.s "wo"] from rfl]
    simp only [List.map]
    rw [coerceTok_int hN0]
    rw [show coerceTok (renderArg (Arg.s "wo")) = Arg.s "wo" from rfl]
    rfl

/-- Round trip of `serpentine_hairpin`. -/
theorem rt_sh (N : Int) (t : String) :
    RoundTrips (serpentine_hairpin N t 1 "theo" (some "aavs")) := by
  intro c h
  unfold serpentine_hairpin at h
  by_cases hv : ¬ (4 ≤ N ∧ N ≤ 14)
  · rw [if_pos hv] at h
    exact absurd h (by simp)
  rw [if_neg hv] at h
  rw [not_not] at hv
  have hN0 : 0 ≤ N := by omega
  obtain ⟨sg, hsg, h2⟩ := bind_ok h
  obtain ⟨ins, hins, h3⟩ := bind_ok h2
  have hname : c.name = make_name "sh" [Arg.i N, Arg.s t] := attach_name h3
  rw [hname]
  rcases serpentine_insert_tuning hins with ht | ht
  · subst ht
    rw [from_name_make "sh" [Arg.i N, Arg.s ""] (by decide) (by decide)
        (by rw [show trimArgs [Arg.i N, Arg.s ""] (schemaDefaults "sh") = [Arg.i N] from rfl]
            intro x hx
            rw [List.mem_singleton] at hx
            subst hx
            exact renderOK_int hN0)]
    rw [show trimArgs [Arg.i N, Arg.s ""] (schemaDefaults "sh") = [Arg.i N] from rfl]
    simp only [List.map]
    rw [coerceTok_int hN0]
    rfl
  · subst ht
    rw [from_name_make "sh" [Arg.i N, Arg.s "wo"] (by decide) (by decide)
        (by rw [show trimArgs [Arg.i N, Arg.s "wo"] (schemaDefaults "sh")
              = [Arg.i N, Arg.s "wo"] from rfl]
            intro x hx
            rw [List.mem_cons, List.mem_singleton] at hx
            rcases hx with hx | hx <;> subst hx
            · exact renderOK_int hN0
            · exact ⟨by decide, by decide⟩)]
    rw [show trimArgs [Arg.i N, Arg.s "wo"] (schemaDefaults "sh") = [Arg.i N, Arg.s "wo"] from rfl]
    simp only [List.map]
    rw [coerceTok_int hN0]
    rw [show coerceTok (renderArg (Arg.s "wo")) = Arg.s "wo" from rfl]
    rfl

/-- Round trip of `circle_hairpin` for non-negative length arguments. -/
theorem rt_ch (N : Int) (t : String) (hN : 0 ≤ N) :
    RoundTrips (circle_hairpin N t 1 "theo" (some "aavs")) := by
  intro c h
  unfold circle_hairpin at h
  obtain ⟨sg, hsg, h2⟩ := bind_ok h
  obtain ⟨ins, hins, h3⟩ := bind_ok h2
  have hname : c.name = make_name "ch" [Arg.i N, Arg.s t] := attach_name h3
  rw [hname]
  rcases circle_insert_tuning hins with ht | ht
  · subst ht
    rw [from_name_make "ch" [Arg.i N, Arg.s ""] (by decide) (by decide)
        (by rw [show trimArgs [Arg.i N, Arg.s ""] (schemaDefaults "ch") = [Arg.i N] from rfl]
            intro x hx
            rw [List.mem_singleton] at hx
            subst hx
            exact renderOK_int hN)]
    rw [show trimArgs [Arg.i N, Arg.s ""] (schemaDefaults "ch") = [Arg.i N] from rfl]
    simp only [List.map]
    rw [coerceTok_int hN]
    rfl
  · subst ht
    rw [from_name_make "ch" [Arg.i N, Arg.s "wo"] (by decide) (by decide)
        (by rw [show trimArgs [Arg.i N, Arg.s "wo"] (schemaDefaults "ch")
              = [Arg.i N, Arg.s "wo"] from rfl]
            intro x hx
            rw [List.mem_cons, List.mem_singleton] at hx
            rcases hx with hx | hx <;> subst hx
            · exact renderOK_int hN
            · exact ⟨by decide, by decide⟩)]
    rw [show trimArgs [Arg.i N, Arg.s "wo"] (schemaDefaults "ch") = [Arg.i N, Arg.s "wo"] from rfl]
    simp only [List.map]
    rw [coerceTok_int hN]
    rw [show coerceTok (renderArg (Arg.s "wo")) = Arg.s "wo" from rfl]
    rfl

/-! ## Claim theorems -/

/-- C2: `wt_sgrna(None).seq` equals the fixed literal concatenation of the
stem, nexus, hairpins and tail domains, with no spacer domain when the
target is `None`. -/
theorem wt_sgrna_literal :
    seqOfR (wt_sgrna none) =
      .ok ("GUUUUAGAGCUAGAAAUAGCAAGUUAAAAU" ++ "AAGGCUAGUCCGU" ++
        "UAUCAACUUGAAAAAGUGGCACCGAGUCGGUGC" ++ "UUUUUU") := by
  decide

/-- C3 (counterexample): `fold_upper_stem(4, target=None).seq` is not the
literal `"GUUUUAGAAUACCAGCC"` claimed by the spec. -/
theorem fold_upper_stem_fixture_counterexample :
    seqOfR (fold_upper_stem 4 0 0 1 "theo" none) ≠ .ok "GUUUUAGAAUACCAGCC" := by
  decide

/-- C3 (amended): `fold_upper_stem(4, target=None).seq` is the full
122-residue construct with the aptamer between stem offsets 12 and 16
(8+N and 20-N with N=4), while the 17-residue literal
`"GUUUUAGAAUACCAGCC"` is the fixture of
`induce_dimerization('5', 0, target=None)` (stem[:8] followed by the
theophylline aptamer's 5' edge). -/
theorem attachment_fixture_amended :
    seqOfR (fold_upper_stem 4 0 0 1 "theo" none) =
      .ok ("GUUUUAGAGCUA" ++ "AUACCAGCCGAAAGGCCCUUGGCAG" ++ "UAGCAAGUUAAAAU" ++
        "AAGGCUAGUCCGU" ++ "UAUCAACUUGAAAAAGUGGCACCGAGUCGGUGC" ++ "UUUUUU") ∧
    seqOfR (induce_dimerization "5" 0 none "theo") = .ok "GUUUUAGAAUACCAGCC" := by
  constructor
  · decide
  · decide

/-- C5: `dead_sgrna(None).seq` equals the wildtype sequence with exactly
the nexus domain's positions 2 and 3 (0-indexed within that domain) set to
C, and that mutated nexus renders as `"AACCCUAGUCCGU"`. -/
theorem dead_sgrna_nexus_mutation :
    seqOfR (dead_sgrna none) =
      .ok (String.mk (stemSeq ++ ((nexusSeq.set 2 'C').set 3 'C') ++ hairpinsSeq ++ tailSeq)) ∧
    seqOfR (wt_sgrna none) =
      .ok (String.mk (stemSeq ++ nexusSeq ++ hairpinsSeq ++ tailSeq)) ∧
    String.mk ((nexusSeq.set 2 'C').set 3 'C') = "AACCCUAGUCCGU" := by
  refine ⟨by decide, by decide, by decide⟩

/-- C6: `make_name` suppresses a trailing default-valued argument, so
`make_name('us', 4, 0) == make_name('us', 4)`, and the parser treats the
trimmed and explicit forms identically. -/
theorem default_trimming_idempotence :
    make_name "us" [Arg.i 4, Arg.i 0] = make_name "us" [Arg.i 4] ∧
    seqOfR (from_name "us(4)") = seqOfR (from_name "us(4,0)") ∧
    isOkB (from_name "us(4)") = true := by
  refine ⟨by decide, by decide, by decide⟩

/-- C7: every delimiter style accepted by `from_name` yields the same
rendered sequence for a fixed design and argument list. -/
theorem delimiter_equivalence :
    seqOfR (from_name "us(4,0)") =
      .ok "GGGGCCACTAGGGACAGGATGUUUUAGAGCUAAUACCAGCCGAAAGGCCCUUGGCAGUAGCAAGUUAAAAUAAGGCUAGUCCGUUAUCAACUUGAAAAAGUGGCACCGAGUCGGUGCUUUUUU" ∧
    seqOfR (from_name "us 4 0") = seqOfR (from_name "us(4,0)") ∧
    seqOfR (from_name "us/4/0") = seqOfR (from_name "us(4,0)") ∧
    seqOfR (from_name "us-4-0") = seqOfR (from_name "us(4,0)") ∧
    seqOfR (from_name "us_4_0") = seqOfR (from_name "us(4,0)") := by
  refine ⟨by decide, by decide, by decide, by decide, by decide⟩

/-- C8: Construct equality is decided by the rendered sequence only: two
constructs with identical `seq` but different name, style and domain
structure compare equal, a construct compares equal to a raw string equal
to its `seq`, and name and metadata never affect either comparison. -/
theorem equality_ignores_name_metadata :
    (∀ a b : Construct, Construct.eqC a b = true ↔ a.seq = b.seq) ∧
    (∀ (a : Construct) (s : String), Construct.eqStr a s = true ↔ a.seq = s.toList) ∧
    Construct.eqC ⟨"one", [⟨"x", "AU".toList, "", "green", false, ""⟩], []⟩
      ⟨"two", [⟨"y", "A".toList, "", "red", false, ""⟩,
               ⟨"z", "U".toList, "", "blue", false, ""⟩], []⟩ = true ∧
    ("one" : String) ≠ "two" ∧
    Construct.eqStr ⟨"one", [⟨"x", "AU".toList, "", "green", false, ""⟩], []⟩ "AU" = true := by
  refine ⟨fun a b => ?_, fun a s => ?_, by decide, by decide, by decide⟩
  · simp [Construct.eqC]
  · simp [Construct.eqStr]

/-- C9: `fold_nexus_2`'s out-of-range message for `M` names `M` and its
accepted range but formats `N`'s value (the source formats the wrong
variable): with `N = 0, M = 6` the message reports `0`, and with
`N = 1, M = 7` it reports `1`. -/
theorem fold_nexus_2_message_bug :
    fold_nexus_2 0 6 0 1 "theo" (some "aavs") =
      .error (.valueError "nxx: M must be between 0 and 5, not 0") ∧
    fold_nexus_2 1 7 0 1 "theo" (some "aavs") =
      .error (.valueError "nxx: M must be between 0 and 5, not 1") := by
  refine ⟨by decide, by decide⟩

/-- C10: for a combo strategy outside slx and sh, `circle_bulge_combo`'s
raise formats the undefined variable `strategy`, so Python raises
`NameError` rather than the `ValueError` the spec requires; with the sh
strategy and no argument it does raise `ValueError`. -/
theorem circle_bulge_combo_error_bug :
    circle_bulge_combo "wo" "bogus" none 1 "theo" (some "aavs") =
      .error (.nameError "name 'strategy' is not defined") ∧
    circle_bulge_combo "wo" "sh" none 1 "theo" (some "aavs") =
      .error (.valueError "The 'sh' combo strategy requires an argument.") := by
  refine ⟨by decide, by decide⟩

/-- C4: each catalog function raises `ValueError` exactly on its
documented out-of-range parameters, with the other parameters at their
defaults: `us(N)` outside [0,4]; `ls(N)` outside [0,6]; `fh(H,N)` for H
outside {1,2} or N outside [0,4] for H=1 / [0,6] for H=2; `sb(N)` for
N < 2; `sh(N)` outside [4,14]. -/
theorem validation_boundaries :
    (∀ N : Int, isVE (fold_upper_stem N 0 0 1 "theo" (some "aavs")) = true ↔ (N < 0 ∨ 4 < N)) ∧
    (∀ N : Int, isVE (fold_lower_stem N 0 0 "theo" (some "aavs")) = true ↔ (N < 0 ∨ 6 < N)) ∧
    (∀ H N : Int, isVE (fold_hairpin H N 1 "theo" (some "aavs")) = true ↔
      ((H ≠ 1 ∧ H ≠ 2) ∨ N < 0 ∨ (if H = 1 then (4 : Int) else 6) < N)) ∧
    (∀ N : Int, isVE (serpentine_bulge N "" 1 "theo" (some "aavs")) = true ↔ N < 2) ∧
    (∀ N : Int, isVE (serpentine_hairpin N "" 1 "theo" (some "aavs")) = true ↔ (N < 4 ∨ 14 < N)) := by
  refine ⟨?_, ?_, ?_, ?_, ?_⟩
  · intro N
    by_cases hv : 0 ≤ N ∧ N ≤ 4
    · obtain ⟨h0, h4⟩ := hv
      interval_cases N <;> decide
    · unfold fold_upper_stem
      rw [if_pos hv]
      simp only [isVE, true_iff]
      omega
  · intro N
    by_cases hv : 0 ≤ N ∧ N ≤ 6
    · obtain ⟨h0, h6⟩ := hv
      interval_cases N <;> decide
    · unfold fold_lower_stem
      rw [if_pos hv]
      simp only [isVE, true_iff]
      omega
  · intro H N
    by_cases hH : H = 1 ∨ H = 2
    · rcases hH with hH | hH <;> subst hH
      · by_cases hv : 0 ≤ N ∧ N ≤ 4
        · obtain ⟨h0, h4⟩ := hv
          interval_cases N <;> decide
        · unfold fold_hairpin
          rw [if_neg (by simp)]
          rw [if_pos (by simpa using hv)]
          simp only [isVE, true_iff]
          simp only [if_true]
          omega
      · by_cases hv : 0 ≤ N ∧ N ≤ 6
        · obtain ⟨h0, h6⟩ := hv
          interval_cases N <;> decide
        · unfold fold_hairpin
          rw [if_neg (by simp)]
          rw [if_pos (by simpa using hv)]
          simp only [isVE, true_iff]
          rw [if_neg (by decide)]
          omega
    · unfold fold_hairpin
      rw [if_pos hH]
      simp only [isVE, true_iff]
      rw [not_or] at hH
      exact Or.inl hH
  · intro N
    by_cases hv : N < 2
    · unfold serpentine_bulge
      rw [if_pos hv]
      simp only [isVE, true_iff]
      exact hv
    · have hok : isVE (serpentine_bulge N "" 1 "theo" (some "aavs")) = false := by
        unfold serpentine_bulge
        rw [if_neg hv]
        rfl
      rw [hok]
      simp only [Bool.false_eq_true, false_iff]
      exact hv
  · intro N
    by_cases hv : ¬ (4 ≤ N ∧ N ≤ 14)
    · unfold serpentine_hairpin
      rw [if_pos hv]
      simp only [isVE, true_iff]
      omega
    · have hok : isVE (serpentine_hairpin N "" 1 "theo" (some "aavs")) = false := by
        unfold serpentine_hairpin
        rw [if_neg hv]
        rfl
      rw [hok]
      simp only [Bool.false_eq_true, false_iff]
      omega

/-- C1 (counterexample): the round trip fails for `circle_bulge_combo`:
its canonical name is built from the abbreviation `cb`, so parsing the
name of `cbc('wo', 'slx', 'wo')` dispatches to `circle_bulge` and fails to
coerce `slx` to an int, even though the combo construct itself is built
successfully. -/
theorem round_trip_cbc_counterexample :
    isOkB (circle_bulge_combo "wo" "slx" (some (Arg.s "wo")) 1 "theo" (some "aavs")) = true ∧
    nameOfR (circle_bulge_combo "wo" "slx" (some (Arg.s "wo")) 1 "theo" (some "aavs"))
      = "cb(wo,slx,wo)" ∧
    seqOfR (from_name (nameOfR
        (circle_bulge_combo "wo" "slx" (some (Arg.s "wo")) 1 "theo" (some "aavs"))))
      ≠ seqOfR (circle_bulge_combo "wo" "slx" (some (Arg.s "wo")) 1 "theo" (some "aavs")) := by
  refine ⟨by decide, by decide, by decide⟩

/-- C1 (amended): for every catalog design function except
`circle_bulge_combo`, and every valid argument tuple that leaves the
parameters not encoded in the canonical name (aptamer count where the name
omits it, ligand, target) at their declared defaults, parsing the
canonical name of the construct reproduces the same rendered sequence. -/
theorem round_trip_via_canonical_name :
    RoundTrips (wt_sgrna none) ∧
    RoundTrips (dead_sgrna none) ∧
    (∀ N l s a : Int, 0 ≤ l → 0 ≤ s → 1 ≤ a →
      RoundTrips (fold_upper_stem N l s a "theo" (some "aavs"))) ∧
    (∀ N l s : Int, 0 ≤ l → 0 ≤ s →
      RoundTrips (fold_lower_stem N l s "theo" (some "aavs"))) ∧
    (∀ l : Int, 0 ≤ l → RoundTrips (fold_nexus l "theo" (some "aavs"))) ∧
    (∀ N M s a : Int, 0 ≤ s → 1 ≤ a →
      RoundTrips (fold_nexus_2 N M s a "theo" (some "aavs"))) ∧
    (∀ H N : Int, RoundTrips (fold_hairpin H N 1 "theo" (some "aavs"))) ∧
    (∀ N : Int, 0 ≤ N → RoundTrips (replace_hairpins N "theo" (some "aavs"))) ∧
    (∀ (hf : String) (N : Int),
      RoundTrips (induce_dimerization hf N (some "aavs") "theo")) ∧
    (∀ (N : Int) (t : String), RoundTrips (serpentine_bulge N t 1 "theo" (some "aavs"))) ∧
    (∀ t : String, RoundTrips (serpentine_lower_stem t 1 "theo" (some "aavs"))) ∧
    (∀ t : String, RoundTrips (serpentine_lower_stem_around_nexus t 1 "theo" (some "aavs"))) ∧
    (∀ (N : Int) (t : String), RoundTrips (serpentine_hairpin N t 1 "theo" (some "aavs"))) ∧
    (∀ t : String, RoundTrips (circle_bulge t 1 "theo" (some "aavs"))) ∧
    (∀ t : String, RoundTrips (circle_lower_stem t 1 "theo" (some "aavs"))) ∧
    (∀ (N : Int) (t : String), 0 ≤ N →
      RoundTrips (circle_hairpin N t 1 "theo" (some "aavs"))) ∧
    (∀ m : String, RoundTrips (hammerhead_upper_stem m 1 "theo" (some "aavs"))) ∧
    (∀ m : String, RoundTrips (hammerhead_nexus m 1 "theo" (some "aavs"))) ∧
    (∀ m : String, RoundTrips (hammerhead_hairpin m 1 "theo" (some "aavs"))) :=
  ⟨rt_wt, rt_dead, rt_us, rt_ls, rt_nx, rt_nxx, rt_fh, rt_hp, rt_id, rt_sb,
   rt_sl, rt_slx, rt_sh, rt_cb, rt_cl, rt_ch, rt_hu, rt_hx, rt_hh⟩

/-- C1 (witness): the amended round trip applied to the concrete call
`fold_upper_stem(3, linker_len=7)`. -/
theorem round_trip_via_canonical_name_witness :
    seqOfR (from_name (nameOfR (fold_upper_stem 3 7 0 1 "theo" (some "aavs"))))
      = seqOfR (fold_upper_stem 3 7 0 1 "theo" (some "aavs")) := by
  have hrt := round_trip_via_canonical_name.2.2.1 3 7 0 1
    (by decide) (by decide) (by decide)
  have hok : isOkB (fold_upper_stem 3 7 0 1 "theo" (some "aavs")) = true := by decide
  cases hr : fold_upper_stem 3 7 0 1 "theo" (some "aavs") with
  | error e =>
    rw [hr] at hok
    exact absurd hok (by simp [isOkB])
  | ok c =>
    have h2 := hrt c hr
    rw [hr] at h2
    simpa [nameOfR] using h2

end SgrnaSensor
